import Mathlib

/-!
# Verification of `Source/Core/EllipsoidGeometry.js`

This file gives a shallow embedding of the `EllipsoidGeometry` constructor and
its two helper functions `addEdgePositions` and `addFaceTriangles`, and proves
the specification claims about them.

Embedding conventions:
* The topology-construction phase (cube corners, edge subdivision, face
  tessellation) only uses ring operations and exact divisions `i / N`, so it is
  embedded over `ℚ` (the idealisation of JavaScript numbers for this phase).
* The projection / normal phase uses `normalize`, which involves a square
  root, so that phase is embedded over `ℝ`.
* JavaScript's in-place array mutation is embedded by explicit state passing:
  each helper returns the new contents of the shared `positions` buffer.
* Out-of-range array reads are embedded with `List.getD` (total, with a junk
  default); the safety claim proves all reads made by the program are in
  bounds.
-/

/-- The value type of `Cartesian3` during the topology-construction phase
(exact arithmetic idealisation of JS numbers). -/
structure Cartesian3 where
  x : ℚ
  y : ℚ
  z : ℚ
deriving DecidableEq, Repr

instance : Inhabited Cartesian3 := ⟨⟨0, 0, 0⟩⟩

/-- Modelled from the spec: `Cartesian3.js` is not under `src/`; the spec lists
the consumed collaborator interface "vector ops (add, subtract, scale-by-scalar,
component-wise multiply, normalize — all pure, non-mutating ...)".
Component-wise addition. -/
def Cartesian3.add (a b : Cartesian3) : Cartesian3 :=
  ⟨a.x + b.x, a.y + b.y, a.z + b.z⟩

/-- Modelled from the spec: component-wise subtraction (see `Cartesian3.add`). -/
def Cartesian3.subtract (a b : Cartesian3) : Cartesian3 :=
  ⟨a.x - b.x, a.y - b.y, a.z - b.z⟩

/-- Modelled from the spec: scale by a scalar (see `Cartesian3.add`). -/
def Cartesian3.multiplyByScalar (a : Cartesian3) (s : ℚ) : Cartesian3 :=
  ⟨a.x * s, a.y * s, a.z * s⟩

/-- `addEdgePositions(i0, i1, numberOfPartitions, positions)` (source lines
187–203), embedded functionally: it returns the edge index list together with
the new contents of the `positions` buffer.

The source seeds slot `0` of the (sparse) `indices` array with `i0` and slot
`2 + (numberOfPartitions - 1) - 1 = numberOfPartitions` with `i1`, then the
loop `for i = 1; i < numberOfPartitions` fills slots `1 .. numberOfPartitions-1`
in order; slot `i` receives the current `positions.length`, which at iteration
`i` equals the initial length plus `i - 1`.  The loop pushes
`origin.add(direction.multiplyByScalar(i / numberOfPartitions))`.  Writing
`k = i - 1`, the final dense array is therefore
`i0 :: [len + 0, ..., len + (N-2)] ++ [i1]` and the buffer gains the points
with parameters `(k+1)/N`. -/
def addEdgePositions (i0 i1 : ℕ) (numberOfPartitions : ℤ)
    (positions : List Cartesian3) : List ℕ × List Cartesian3 :=
  let origin := positions.getD i0 default
  let direction := (positions.getD i1 default).subtract (positions.getD i0 default)
  let interiorCount := (numberOfPartitions - 1).toNat
  (i0 :: ((List.range interiorCount).map (fun k => positions.length + k) ++ [i1]),
   positions ++ (List.range interiorCount).map (fun (k : ℕ) =>
     origin.add (direction.multiplyByScalar
       (((k : ℚ) + 1) / (numberOfPartitions : ℚ)))))

/-- The six triangle indices pushed by the inner `k` loop of
`addFaceTriangles` (source lines 246–254), for all `k = 0 .. N-1`:
`bottomIndices[k], bottomIndices[k+1], topIndices[k+1]`, then
`bottomIndices[k], topIndices[k+1], topIndices[k]`. -/
def rowTriangles (bottomIndices topIndices : List ℕ) (numberOfPartitions : ℤ) :
    List ℕ :=
  (List.range numberOfPartitions.toNat).flatMap (fun k =>
    [bottomIndices.getD k 0, bottomIndices.getD (k + 1) 0, topIndices.getD (k + 1) 0,
     bottomIndices.getD k 0, topIndices.getD (k + 1) 0, topIndices.getD k 0])

/-- The new interior positions pushed by the inner `i` loop of
`addFaceTriangles` for row `j` (source lines 232–238):
`origin.add(offsetX).add(offsetY)` with `offsetX = x · (i/N)`,
`offsetY = y · (j/N)`, for `i = 1 .. N-1` (written `i = k+1`). -/
def faceRowPositions (origin xdir ydir : Cartesian3) (numberOfPartitions j : ℤ) :
    List Cartesian3 :=
  (List.range (numberOfPartitions - 1).toNat).map (fun (k : ℕ) =>
    (origin.add (xdir.multiplyByScalar (((k : ℚ) + 1) / (numberOfPartitions : ℚ)))).add
      (ydir.multiplyByScalar ((j : ℚ) / (numberOfPartitions : ℚ))))

/-- The index row built by `addFaceTriangles` for an interior row `j`
(`1 ≤ j ≤ N-1`, source lines 226–237): slot `0` is `leftBottomToTop[j]`, slot
`N` is `rightBottomToTop[j]`, and slots `1 .. N-1` receive the indices of the
freshly pushed interior positions, which are consecutive starting at the value
of `positions.length` when the row starts (`startLen`). -/
def faceRowIdx (leftBottomToTop rightBottomToTop : List ℕ)
    (numberOfPartitions : ℤ) (startLen : ℕ) (j : ℤ) : List ℕ :=
  leftBottomToTop.getD j.toNat 0 ::
    ((List.range (numberOfPartitions - 1).toNat).map (fun i => startLen + i) ++
      [rightBottomToTop.getD j.toNat 0])

/-- The `j` loop of `addFaceTriangles` (source lines 216–255), embedded as a
recursion carrying the loop state: the current row number `j`, the current
bottom index row (`bottomIndices`), and the shared `positions` / `indices`
buffers.  For `j ≠ N` the top row is freshly built (`faceRowIdx`) and its
interior positions are pushed; for `j = N` the top row is `topLeftToRight` and
nothing is pushed.  In both cases the two triangles per cell are emitted
(`rowTriangles`) and the next iteration's bottom row is this iteration's top
row (the source's buffer copy / aliasing dance has exactly this effect). -/
def addFaceTrianglesLoop (leftBottomToTop rightBottomToTop topLeftToRight : List ℕ)
    (numberOfPartitions : ℤ) (origin xdir ydir : Cartesian3) (j : ℤ)
    (bottomIndices : List ℕ) (positions : List Cartesian3) (indices : List ℕ) :
    List Cartesian3 × List ℕ :=
  if j ≤ numberOfPartitions then
    let topIndices :=
      if j ≠ numberOfPartitions then
        faceRowIdx leftBottomToTop rightBottomToTop numberOfPartitions positions.length j
      else topLeftToRight
    let positions' :=
      if j ≠ numberOfPartitions then
        positions ++ faceRowPositions origin xdir ydir numberOfPartitions j
      else positions
    let indices' := indices ++ rowTriangles bottomIndices topIndices numberOfPartitions
    addFaceTrianglesLoop leftBottomToTop rightBottomToTop topLeftToRight
      numberOfPartitions origin xdir ydir (j + 1) topIndices positions' indices'
  else (positions, indices)
termination_by (numberOfPartitions + 1 - j).toNat
decreasing_by omega

/-- `addFaceTriangles(leftBottomToTop, bottomLeftToRight, rightBottomToTop,
topLeftToRight, numberOfPartitions, positions, indices)` (source lines
205–256), embedded functionally: returns the new contents of the `positions`
and `indices` buffers.  The local basis reads are
`origin = positions[bottomLeftToRight[0]]`,
`x = positions[bottomLeftToRight[last]] − origin`,
`y = positions[topLeftToRight[0]] − origin`, and the loop starts at `j = 1`
with `bottomIndices = bottomLeftToRight`. -/
def addFaceTriangles (leftBottomToTop bottomLeftToRight rightBottomToTop
    topLeftToRight : List ℕ) (numberOfPartitions : ℤ)
    (positions : List Cartesian3) (indices : List ℕ) :
    List Cartesian3 × List ℕ :=
  let origin := positions.getD (bottomLeftToRight.getD 0 0) default
  let xdir := (positions.getD
    (bottomLeftToRight.getD (bottomLeftToRight.length - 1) 0) default).subtract origin
  let ydir := (positions.getD (topLeftToRight.getD 0 0) default).subtract origin
  addFaceTrianglesLoop leftBottomToTop rightBottomToTop topLeftToRight
    numberOfPartitions origin xdir ydir 1 bottomLeftToRight positions indices

/-- The eight cube corners pushed at source lines 65–72. -/
def cubeCorners : List Cartesian3 :=
  [⟨-1, 0, -1⟩, ⟨0, -1, -1⟩, ⟨1, 0, -1⟩, ⟨0, 1, -1⟩,
   ⟨-1, 0, 1⟩, ⟨0, -1, 1⟩, ⟨1, 0, 1⟩, ⟨0, 1, 1⟩]

/-- The topology-construction phase of the constructor (source lines 48–107):
the initial cube, the twelve edge subdivisions, and the six face tessellation
calls, threading the shared `positions` and `indices` buffers.  Returns the
final buffers. -/
def buildCubeTopology (numberOfPartitions : ℤ) : List Cartesian3 × List ℕ :=
  let e01 := addEdgePositions 0 1 numberOfPartitions cubeCorners
  let e12 := addEdgePositions 1 2 numberOfPartitions e01.2
  let e23 := addEdgePositions 2 3 numberOfPartitions e12.2
  let e30 := addEdgePositions 3 0 numberOfPartitions e23.2
  let e45 := addEdgePositions 4 5 numberOfPartitions e30.2
  let e56 := addEdgePositions 5 6 numberOfPartitions e45.2
  let e67 := addEdgePositions 6 7 numberOfPartitions e56.2
  let e74 := addEdgePositions 7 4 numberOfPartitions e67.2
  let e04 := addEdgePositions 0 4 numberOfPartitions e74.2
  let e15 := addEdgePositions 1 5 numberOfPartitions e04.2
  let e26 := addEdgePositions 2 6 numberOfPartitions e15.2
  let e37 := addEdgePositions 3 7 numberOfPartitions e26.2
  -- Q3 Face
  let f0 := addFaceTriangles e04.1 e01.1 e15.1 e45.1 numberOfPartitions e37.2 []
  -- Q4 Face
  let f1 := addFaceTriangles e15.1 e12.1 e26.1 e56.1 numberOfPartitions f0.1 f0.2
  -- Q1 Face
  let f2 := addFaceTriangles e26.1 e23.1 e37.1 e67.1 numberOfPartitions f1.1 f1.2
  -- Q2 Face
  let f3 := addFaceTriangles e37.1 e30.1 e04.1 e74.1 numberOfPartitions f2.1 f2.2
  -- Plane z = 1 (the source passes `edge.slice(0).reverse()`, i.e. a reversed copy)
  let f4 := addFaceTriangles e74.1.reverse e45.1 e56.1 e67.1.reverse numberOfPartitions f3.1 f3.2
  -- Plane z = -1
  let f5 := addFaceTriangles e12.1 e01.1.reverse e30.1.reverse e23.1 numberOfPartitions f4.1 f4.2
  (f5.1, f5.2)

/-! ## The projection / normal phase and the constructor proper -/

/-- The value type of `Cartesian3` during the projection / normal phase, where
`normalize` (a square root) occurs: real-valued vectors. -/
structure R3 where
  x : ℝ
  y : ℝ
  z : ℝ

/-- Inclusion of the exact topology-phase values into the real-valued phase. -/
def Cartesian3.toR3 (p : Cartesian3) : R3 :=
  ⟨(p.x : ℝ), (p.y : ℝ), (p.z : ℝ)⟩

/-- Modelled from the spec: `Cartesian3.normalize` is not under `src/`; the
spec says "normalize to unit length": division by the magnitude. -/
noncomputable def R3.normalize (v : R3) : R3 :=
  let magnitude := Real.sqrt (v.x ^ 2 + v.y ^ 2 + v.z ^ 2)
  ⟨v.x / magnitude, v.y / magnitude, v.z / magnitude⟩

/-- Modelled from the spec: component-wise multiplication
(`Cartesian3.multiplyComponents`). -/
def R3.multiplyComponents (a b : R3) : R3 :=
  ⟨a.x * b.x, a.y * b.y, a.z * b.z⟩

/-- Modelled from the spec: the `Ellipsoid` collaborator "exposes radii and a
geodetic-surface-normal function". -/
structure Ellipsoid where
  radii : R3

/-- Modelled from the spec: `Ellipsoid.getRadii` returns the radii vector. -/
def Ellipsoid.getRadii (e : Ellipsoid) : R3 := e.radii

/-- Modelled from the spec: the default ellipsoid `Ellipsoid.UNIT_SPHERE`
("default unit sphere"). -/
def Ellipsoid.UNIT_SPHERE : Ellipsoid := ⟨⟨1, 1, 1⟩⟩

/-- Modelled from the spec: `Ellipsoid.geodeticSurfaceNormal` is the
"gradient of the ellipsoid implicit surface at that direction", normalized:
the implicit surface is `x²/a² + y²/b² + z²/c² = 1`, whose gradient at `p` is
proportional to `(p.x/a², p.y/b², p.z/c²)`. -/
noncomputable def Ellipsoid.geodeticSurfaceNormal (e : Ellipsoid) (p : R3) : R3 :=
  R3.normalize ⟨p.x / e.radii.x ^ 2, p.y / e.radii.y ^ 2, p.z / e.radii.z ^ 2⟩

/-- Modelled from the spec: the `vertexFormat` configuration, "flags: generate
position, generate normal". -/
structure VertexFormat where
  position : Bool
  normal : Bool
deriving DecidableEq, Repr

/-- Modelled from the spec: `VertexFormat.DEFAULT` requests both attributes
("default both"). -/
def VertexFormat.DEFAULT : VertexFormat := ⟨true, true⟩

/-- The options object accepted by the constructor (source lines 36–42); every
field is optional and defaulted by `defaultValue`.  The `modelMatrix` and
`pickData` pass-through fields concern no claim and are omitted. -/
structure EllipsoidGeometryOptions where
  ellipsoid : Option Ellipsoid := none
  numberOfPartitions : Option ℤ := none
  vertexFormat : Option VertexFormat := none

/-- The `DeveloperError` thrown at source line 45. -/
structure DeveloperError where
  message : String
deriving DecidableEq, Repr

/-- A `GeometryAttribute` (componentDatatype FLOAT, 3 components per
attribute, flat values array), as built at source lines 130–134 and 149–153. -/
structure GeometryAttribute where
  componentsPerAttribute : ℕ
  values : List ℝ

/-- The attributes object: optional `position` and `normal` entries. -/
structure GeometryAttributes where
  position : Option GeometryAttribute
  normal : Option GeometryAttribute

/-- The single `GeometryIndices` entry (primitive type TRIANGLES). -/
structure GeometryIndices where
  values : List ℕ

/-- The output geometry object (attributes, index lists; the bounding sphere,
model matrix and pick data concern no claim and are omitted). -/
structure Geometry where
  attributes : GeometryAttributes
  indexLists : List GeometryIndices

/-- Flattening loop: each vertex writes its `x`, `y`, `z` consecutively
(source lines 125–127 and 144–146). -/
def flattenR3 (l : List R3) : List ℝ :=
  l.flatMap (fun p => [p.x, p.y, p.z])

/-- The in-place projection applied to each buffer entry when the position
attribute is requested (source lines 122–124):
`Cartesian3.normalize(item, item); Cartesian3.multiplyComponents(item, radii, item)`. -/
noncomputable def projectPositions (radii : R3) (l : List R3) : List R3 :=
  l.map (fun item => (R3.normalize item).multiplyComponents radii)

/-- The `EllipsoidGeometry` constructor (source lines 36–185), embedded as a
fallible function.  The in-place mutation of the `positions` buffer by the
projection loop is captured by `positionsAfter`: when `vertexFormat.position`
is set the buffer contents seen by the later normal loop are the projected
values, otherwise they are still the cube-space values. -/
noncomputable def EllipsoidGeometry (options : EllipsoidGeometryOptions) :
    Except DeveloperError Geometry :=
  let ellipsoid := options.ellipsoid.getD Ellipsoid.UNIT_SPHERE
  let numberOfPartitions := options.numberOfPartitions.getD 32
  let vertexFormat := options.vertexFormat.getD VertexFormat.DEFAULT
  if numberOfPartitions ≤ 0 then
    Except.error ⟨"options.numberOfPartitions must be greater than zero."⟩
  else
    let topology := buildCubeTopology numberOfPartitions
    let positions := topology.1.map Cartesian3.toR3
    let indices := topology.2
    let positionsAfter :=
      if vertexFormat.position then projectPositions ellipsoid.getRadii positions
      else positions
    let positionAttribute :=
      if vertexFormat.position then
        some (GeometryAttribute.mk 3 (flattenR3 (projectPositions ellipsoid.getRadii positions)))
      else none
    let normalAttribute :=
      if vertexFormat.normal then
        some (GeometryAttribute.mk 3
          (flattenR3 (positionsAfter.map (fun p => ellipsoid.geodeticSurfaceNormal p))))
      else none
    Except.ok
      { attributes := ⟨positionAttribute, normalAttribute⟩,
        indexLists := [⟨indices⟩] }

/-! ## Closed forms for the two helpers -/

/-- The corner with a given index in the initial buffer. -/
def corner (i : ℕ) : Cartesian3 := cubeCorners.getD i default

/-- Closed form of the buffer segment appended by one `addEdgePositions` call
whose endpoint reads returned `a` and `b`. -/
def edgeBlock (a b : Cartesian3) (n : ℤ) : List Cartesian3 :=
  (List.range (n - 1).toNat).map (fun (k : ℕ) =>
    a.add ((b.subtract a).multiplyByScalar (((k : ℚ) + 1) / (n : ℚ))))

/-- Closed form of the index list returned by one `addEdgePositions` call made
when the buffer had length `base`. -/
def edgeIdxList (base : ℕ) (i0 i1 : ℕ) (n : ℤ) : List ℕ :=
  i0 :: ((List.range (n - 1).toNat).map (fun k => base + k) ++ [i1])

theorem addEdgePositions_eq (i0 i1 : ℕ) (n : ℤ) (ps : List Cartesian3) :
    addEdgePositions i0 i1 n ps =
      (edgeIdxList ps.length i0 i1 n,
       ps ++ edgeBlock (ps.getD i0 default) (ps.getD i1 default) n) := rfl

@[simp] theorem length_edgeBlock (a b : Cartesian3) (n : ℤ) :
    (edgeBlock a b n).length = (n - 1).toNat := by
  rw [edgeBlock, List.length_map, List.length_range]

@[simp] theorem length_edgeIdxList (base i0 i1 : ℕ) (n : ℤ) :
    (edgeIdxList base i0 i1 n).length = (n - 1).toNat + 2 := by
  rw [edgeIdxList, List.length_cons, List.length_append, List.length_map,
    List.length_range, List.length_singleton]

@[simp] theorem length_faceRowPositions (o xd yd : Cartesian3) (n j : ℤ) :
    (faceRowPositions o xd yd n j).length = (n - 1).toNat := by
  rw [faceRowPositions, List.length_map, List.length_range]

@[simp] theorem length_faceRowIdx (l r : List ℕ) (n : ℤ) (s : ℕ) (j : ℤ) :
    (faceRowIdx l r n s j).length = (n - 1).toNat + 2 := by
  rw [faceRowIdx, List.length_cons, List.length_append, List.length_map,
    List.length_range, List.length_singleton]

/-- The index row in effect at "height" `j` of a face: row `0` is the bottom
edge list, row `N` is the top edge list, and rows `1 .. N-1` are the freshly
built interior rows; `base` is the length the `positions` buffer had when the
face call started (row `j`'s interior indices start at
`base + (j-1)·(N-1)`). -/
def faceRowAt (left bottom right top : List ℕ) (n : ℤ) (base : ℕ) (j : ℤ) :
    List ℕ :=
  if j = 0 then bottom
  else if j = n then top
  else faceRowIdx left right n (base + (j - 1).toNat * (n - 1).toNat) j

/-- `rowsFrom f j k` is `f j ++ f (j+1) ++ ... ++ f (j+k-1)`: the
concatenation of `k` consecutive per-row outputs starting at row `j`. -/
def rowsFrom {α : Type} (f : ℤ → List α) (j : ℤ) : ℕ → List α
  | 0 => []
  | k + 1 => f j ++ rowsFrom f (j + 1) k

theorem rowsFrom_eq_flatMap {α : Type} (f : ℤ → List α) :
    ∀ (k : ℕ) (j : ℤ),
      rowsFrom f j k = (List.range k).flatMap (fun (m : ℕ) => f (j + (m : ℤ))) := by
  intro k
  induction k with
  | zero => intro j; rfl
  | succ k IH =>
    intro j
    rw [rowsFrom, List.range_succ_eq_map, List.flatMap_cons, List.flatMap_map, IH]
    congr 1
    · rw [Nat.cast_zero, add_zero]
    · congr 1
      funext m
      congr 1
      push_cast
      ring

/-- Closed form of the positions appended by one `addFaceTriangles` call with
basis `(o, xd, yd)`: the interior grid, row by row (`j = 1 .. N-1`). -/
def faceInteriorPositions (o xd yd : Cartesian3) (n : ℤ) : List Cartesian3 :=
  rowsFrom (faceRowPositions o xd yd n) 1 (n - 1).toNat

/-- Closed form of the triangle indices appended by one `addFaceTriangles`
call: for each row `j = 1 .. N` the `rowTriangles` of the index rows at
heights `j - 1` and `j`. -/
def faceIndices (left bottom right top : List ℕ) (n : ℤ) (base : ℕ) : List ℕ :=
  rowsFrom (fun j => rowTriangles (faceRowAt left bottom right top n base (j - 1))
    (faceRowAt left bottom right top n base j) n) 1 n.toNat

theorem addFaceTrianglesLoop_eq (left bottom right top : List ℕ) (n : ℤ)
    (o xd yd : Cartesian3) (base : ℕ) :
    ∀ (k : ℕ) (j : ℤ), 1 ≤ j → j ≤ n → (n - j).toNat = k →
    ∀ (ps : List Cartesian3) (ix : List ℕ),
      ps.length = base + (j - 1).toNat * (n - 1).toNat →
      addFaceTrianglesLoop left right top n o xd yd j
        (faceRowAt left bottom right top n base (j - 1)) ps ix =
      (ps ++ rowsFrom (faceRowPositions o xd yd n) j k,
       ix ++ rowsFrom (fun jj => rowTriangles
          (faceRowAt left bottom right top n base (jj - 1))
          (faceRowAt left bottom right top n base jj) n) j (k + 1)) := by
  intro k
  induction k with
  | zero =>
    intro j h1 h2 hk ps ix hlen
    have hjn : j = n := by omega
    have hrow : faceRowAt left bottom right top n base n = top := by
      unfold faceRowAt
      rw [if_neg (by omega), if_pos rfl]
    rw [hjn]
    rw [addFaceTrianglesLoop, if_pos (le_refl n)]
    simp only [ne_eq, not_true_eq_false, ite_false]
    rw [addFaceTrianglesLoop, if_neg (by omega : ¬ (n + 1 ≤ n))]
    rw [Prod.mk.injEq]
    refine ⟨by rw [rowsFrom, List.append_nil], ?_⟩
    rw [rowsFrom, rowsFrom, List.append_nil, hrow]
  | succ k IH =>
    intro j h1 h2 hk ps ix hlen
    have hjn : j ≠ n := by omega
    have hrowj : faceRowIdx left right n ps.length j =
        faceRowAt left bottom right top n base j := by
      unfold faceRowAt
      rw [if_neg (by omega), if_neg hjn, hlen]
    rw [addFaceTrianglesLoop, if_pos h2]
    simp only [ne_eq, hjn, not_false_eq_true, ite_true]
    rw [hrowj]
    have hlen' : (ps ++ faceRowPositions o xd yd n j).length =
        base + (j + 1 - 1).toNat * (n - 1).toNat := by
      have e1 : (j + 1 - 1).toNat = (j - 1).toNat + 1 := by omega
      rw [List.length_append, length_faceRowPositions, hlen, e1]
      ring
    have IH' := IH (j + 1) (by omega) (by omega) (by omega)
      (ps ++ faceRowPositions o xd yd n j)
      (ix ++ rowTriangles (faceRowAt left bottom right top n base (j - 1))
        (faceRowAt left bottom right top n base j) n) hlen'
    have hshift : j + 1 - 1 = j := by ring
    rw [hshift] at IH'
    rw [IH']
    rw [Prod.mk.injEq]
    constructor
    · rw [rowsFrom, List.append_assoc]
    · rw [rowsFrom, rowsFrom, rowsFrom]
      simp only [List.append_assoc]

/-- The `origin` read of `addFaceTriangles` (source line 206). -/
def faceOrigin (bottom : List ℕ) (ps : List Cartesian3) : Cartesian3 :=
  ps.getD (bottom.getD 0 0) default

/-- The `x` basis read of `addFaceTriangles` (source line 207). -/
def faceXdir (bottom : List ℕ) (ps : List Cartesian3) : Cartesian3 :=
  (ps.getD (bottom.getD (bottom.length - 1) 0) default).subtract (faceOrigin bottom ps)

/-- The `y` basis read of `addFaceTriangles` (source line 208). -/
def faceYdir (bottom top : List ℕ) (ps : List Cartesian3) : Cartesian3 :=
  (ps.getD (top.getD 0 0) default).subtract (faceOrigin bottom ps)

theorem addFaceTriangles_eq (left bottom right top : List ℕ) (n : ℤ) (h : 1 ≤ n)
    (ps : List Cartesian3) (ix : List ℕ) :
    addFaceTriangles left bottom right top n ps ix =
      (ps ++ faceInteriorPositions (faceOrigin bottom ps) (faceXdir bottom ps)
          (faceYdir bottom top ps) n,
       ix ++ faceIndices left bottom right top n ps.length) := by
  unfold addFaceTriangles
  have h0 : bottom = faceRowAt left bottom right top n ps.length (1 - 1) := by
    unfold faceRowAt
    norm_num
  conv_lhs => rw [h0]
  rw [addFaceTrianglesLoop_eq left bottom right top n _ _ _ ps.length (n - 1).toNat 1
    (le_refl 1) h (by omega) ps ix (by simp)]
  rw [Prod.mk.injEq]
  refine ⟨rfl, ?_⟩
  unfold faceIndices
  have : n.toNat = (n - 1).toNat + 1 := by omega
  rw [this]

@[simp] theorem length_cubeCorners : cubeCorners.length = 8 := rfl

@[simp] theorem length_rowTriangles (b t : List ℕ) (n : ℤ) :
    (rowTriangles b t n).length = 6 * n.toNat := by
  rw [rowTriangles]
  induction n.toNat with
  | zero => rfl
  | succ k IH =>
    rw [List.range_succ, List.flatMap_append, List.length_append, IH]
    simp
    ring

theorem length_rowsFrom {α : Type} (f : ℤ → List α) (c : ℕ)
    (hf : ∀ jj, (f jj).length = c) :
    ∀ (k : ℕ) (j : ℤ), (rowsFrom f j k).length = k * c := by
  intro k
  induction k with
  | zero => intro j; simp [rowsFrom]
  | succ k IH =>
    intro j
    rw [rowsFrom, List.length_append, hf, IH]
    ring

@[simp] theorem length_faceInteriorPositions (o xd yd : Cartesian3) (n : ℤ) :
    (faceInteriorPositions o xd yd n).length = (n - 1).toNat * (n - 1).toNat := by
  rw [faceInteriorPositions]
  exact length_rowsFrom _ _ (fun jj => length_faceRowPositions o xd yd n jj) _ _

@[simp] theorem length_faceIndices (l b r t : List ℕ) (n : ℤ) (base : ℕ) :
    (faceIndices l b r t n base).length = n.toNat * (6 * n.toNat) := by
  rw [faceIndices]
  exact length_rowsFrom _ _ (fun jj => length_rowTriangles _ _ n) _ _

theorem edgeIdxList_getD_last (base i0 i1 : ℕ) (n : ℤ) (d : ℕ) :
    (edgeIdxList base i0 i1 n).getD ((edgeIdxList base i0 i1 n).length - 1) d = i1 := by
  rw [length_edgeIdxList, edgeIdxList]
  have : (n - 1).toNat + 2 - 1 = (n - 1).toNat + 1 := by omega
  rw [this, List.getD_cons_succ, List.getD_append_right _ _ _ _ (by simp)]
  simp

theorem edgeIdxList_reverse_eq (base i0 i1 : ℕ) (n : ℤ) :
    (edgeIdxList base i0 i1 n).reverse =
      i1 :: (((List.range (n - 1).toNat).map (fun k => base + k)).reverse ++ [i0]) := by
  rw [edgeIdxList, List.reverse_cons, List.reverse_append]
  simp

@[simp] theorem length_edgeIdxList_reverse (base i0 i1 : ℕ) (n : ℤ) :
    ((edgeIdxList base i0 i1 n).reverse).length = (n - 1).toNat + 2 := by
  rw [List.length_reverse, length_edgeIdxList]

theorem edgeIdxList_reverse_getD_zero (base i0 i1 : ℕ) (n : ℤ) (d : ℕ) :
    ((edgeIdxList base i0 i1 n).reverse).getD 0 d = i1 := by
  rw [edgeIdxList_reverse_eq]
  rfl

theorem edgeIdxList_reverse_getD_last (base i0 i1 : ℕ) (n : ℤ) (d : ℕ) :
    ((edgeIdxList base i0 i1 n).reverse).getD
      (((edgeIdxList base i0 i1 n).reverse).length - 1) d = i0 := by
  rw [length_edgeIdxList_reverse, edgeIdxList_reverse_eq]
  have : (n - 1).toNat + 2 - 1 = (n - 1).toNat + 1 := by omega
  rw [this, List.getD_cons_succ, List.getD_append_right _ _ _ _ (by simp)]
  simp

/-! ## Closed form of the whole topology construction -/

/-- The index list returned for the source's `edge0to1` (source lines 81–94). -/
def edge0to1 (n : ℤ) : List ℕ := edgeIdxList 8 0 1 n

/-- The index list returned for the source's `edge1to2` (source lines 81–94). -/
def edge1to2 (n : ℤ) : List ℕ := edgeIdxList (8 + 1 * (n - 1).toNat) 1 2 n

/-- The index list returned for the source's `edge2to3` (source lines 81–94). -/
def edge2to3 (n : ℤ) : List ℕ := edgeIdxList (8 + 2 * (n - 1).toNat) 2 3 n

/-- The index list returned for the source's `edge3to0` (source lines 81–94). -/
def edge3to0 (n : ℤ) : List ℕ := edgeIdxList (8 + 3 * (n - 1).toNat) 3 0 n

/-- The index list returned for the source's `edge4to5` (source lines 81–94). -/
def edge4to5 (n : ℤ) : List ℕ := edgeIdxList (8 + 4 * (n - 1).toNat) 4 5 n

/-- The index list returned for the source's `edge5to6` (source lines 81–94). -/
def edge5to6 (n : ℤ) : List ℕ := edgeIdxList (8 + 5 * (n - 1).toNat) 5 6 n

/-- The index list returned for the source's `edge6to7` (source lines 81–94). -/
def edge6to7 (n : ℤ) : List ℕ := edgeIdxList (8 + 6 * (n - 1).toNat) 6 7 n

/-- The index list returned for the source's `edge7to4` (source lines 81–94). -/
def edge7to4 (n : ℤ) : List ℕ := edgeIdxList (8 + 7 * (n - 1).toNat) 7 4 n

/-- The index list returned for the source's `edge0to4` (source lines 81–94). -/
def edge0to4 (n : ℤ) : List ℕ := edgeIdxList (8 + 8 * (n - 1).toNat) 0 4 n

/-- The index list returned for the source's `edge1to5` (source lines 81–94). -/
def edge1to5 (n : ℤ) : List ℕ := edgeIdxList (8 + 9 * (n - 1).toNat) 1 5 n

/-- The index list returned for the source's `edge2to6` (source lines 81–94). -/
def edge2to6 (n : ℤ) : List ℕ := edgeIdxList (8 + 10 * (n - 1).toNat) 2 6 n

/-- The index list returned for the source's `edge3to7` (source lines 81–94). -/
def edge3to7 (n : ℤ) : List ℕ := edgeIdxList (8 + 11 * (n - 1).toNat) 3 7 n

/-- The corner index pairs of the twelve edges, in the order the source
subdivides them (source lines 81–94). -/
def edgeCornerPairs : List (ℕ × ℕ) :=
  [(0, 1), (1, 2), (2, 3), (3, 0), (4, 5), (5, 6), (6, 7), (7, 4),
   (0, 4), (1, 5), (2, 6), (3, 7)]

/-- The `positions` buffer after the first `m` edge subdivisions. -/
def edgesPositionsStage (n : ℤ) : ℕ → List Cartesian3
  | 0 => cubeCorners
  | m + 1 => edgesPositionsStage n m ++
      edgeBlock (corner (edgeCornerPairs.getD m (0, 0)).1)
        (corner (edgeCornerPairs.getD m (0, 0)).2) n

/-- The `positions` buffer after all twelve edge subdivisions. -/
def edgesPositions (n : ℤ) : List Cartesian3 := edgesPositionsStage n 12

theorem length_edgesPositionsStage (n : ℤ) :
    ∀ m, (edgesPositionsStage n m).length = 8 + m * (n - 1).toNat
  | 0 => by simp [edgesPositionsStage]
  | m + 1 => by
    rw [edgesPositionsStage, List.length_append, length_edgesPositionsStage n m,
      length_edgeBlock]
    ring

@[simp] theorem length_edgesPositions (n : ℤ) :
    (edgesPositions n).length = 8 + 12 * (n - 1).toNat :=
  length_edgesPositionsStage n 12

/-- The length of the `positions` buffer when face number `f` starts being
tessellated. -/
def faceBase (n : ℤ) (f : ℕ) : ℕ :=
  8 + 12 * (n - 1).toNat + f * ((n - 1).toNat * (n - 1).toNat)

/-- The local basis (`origin`, `x`, `y`) of each of the six faces, evaluated
from the cube corners. -/
def faceBasis : ℕ → Cartesian3 × Cartesian3 × Cartesian3
  | 0 => (⟨-1, 0, -1⟩, ⟨1, -1, 0⟩, ⟨0, 0, 2⟩)
  | 1 => (⟨0, -1, -1⟩, ⟨1, 1, 0⟩, ⟨0, 0, 2⟩)
  | 2 => (⟨1, 0, -1⟩, ⟨-1, 1, 0⟩, ⟨0, 0, 2⟩)
  | 3 => (⟨0, 1, -1⟩, ⟨-1, -1, 0⟩, ⟨0, 0, 2⟩)
  | 4 => (⟨-1, 0, 1⟩, ⟨1, -1, 0⟩, ⟨1, 1, 0⟩)
  | _ => (⟨0, -1, -1⟩, ⟨-1, 1, 0⟩, ⟨1, 1, 0⟩)

/-- The four boundary edge index lists (left, bottom, right, top) passed to
each of the six face tessellation calls (source lines 96–107). -/
def faceEdges (n : ℤ) : ℕ → List ℕ × List ℕ × List ℕ × List ℕ
  | 0 => (edge0to4 n, edge0to1 n, edge1to5 n, edge4to5 n)
  | 1 => (edge1to5 n, edge1to2 n, edge2to6 n, edge5to6 n)
  | 2 => (edge2to6 n, edge2to3 n, edge3to7 n, edge6to7 n)
  | 3 => (edge3to7 n, edge3to0 n, edge0to4 n, edge7to4 n)
  | 4 => ((edge7to4 n).reverse, edge4to5 n, edge5to6 n, (edge6to7 n).reverse)
  | _ => (edge1to2 n, (edge0to1 n).reverse, (edge3to0 n).reverse, edge2to3 n)

/-- The `positions` and `indices` buffers after the first `f` face
tessellation calls. -/
def facesStage (n : ℤ) : ℕ → List Cartesian3 × List ℕ
  | 0 => (edgesPositions n, [])
  | f + 1 =>
    ((facesStage n f).1 ++
       faceInteriorPositions (faceBasis f).1 (faceBasis f).2.1 (faceBasis f).2.2 n,
     (facesStage n f).2 ++
       faceIndices (faceEdges n f).1 (faceEdges n f).2.1 (faceEdges n f).2.2.1
         (faceEdges n f).2.2.2 n (faceBase n f))

/-- Closed form of the final `positions` buffer. -/
def finalPositions (n : ℤ) : List Cartesian3 := (facesStage n 6).1

/-- Closed form of the final `indices` buffer. -/
def finalIndices (n : ℤ) : List ℕ := (facesStage n 6).2

theorem length_facesStage_fst (n : ℤ) :
    ∀ f, ((facesStage n f).1).length = faceBase n f
  | 0 => by
    rw [facesStage]
    show (edgesPositions n).length = _
    rw [length_edgesPositions, faceBase]
    ring
  | f + 1 => by
    rw [facesStage]
    show ((facesStage n f).1 ++ _).length = _
    rw [List.length_append, length_facesStage_fst n f, length_faceInteriorPositions,
      faceBase, faceBase]
    ring

theorem edgesPositionsStage_prefix (n : ℤ) :
    ∀ m, ∃ rest, edgesPositionsStage n m = cubeCorners ++ rest
  | 0 => ⟨[], by rw [edgesPositionsStage, List.append_nil]⟩
  | m + 1 => by
    obtain ⟨rest, hrest⟩ := edgesPositionsStage_prefix n m
    refine ⟨rest ++ edgeBlock (corner (edgeCornerPairs.getD m (0, 0)).1)
      (corner (edgeCornerPairs.getD m (0, 0)).2) n, ?_⟩
    rw [edgesPositionsStage, hrest, List.append_assoc]

theorem facesStage_fst_prefix (n : ℤ) :
    ∀ f, ∃ rest, (facesStage n f).1 = cubeCorners ++ rest
  | 0 => by
    obtain ⟨rest, hrest⟩ := edgesPositionsStage_prefix n 12
    exact ⟨rest, hrest⟩
  | f + 1 => by
    obtain ⟨rest, hrest⟩ := facesStage_fst_prefix n f
    refine ⟨rest ++ faceInteriorPositions (faceBasis f).1 (faceBasis f).2.1
      (faceBasis f).2.2 n, ?_⟩
    rw [facesStage]
    show (facesStage n f).1 ++ _ = _
    rw [hrest, List.append_assoc]

theorem getD_edgesPositionsStage (n : ℤ) (m i : ℕ) (h : i < 8) :
    (edgesPositionsStage n m).getD i default = cubeCorners.getD i default := by
  obtain ⟨rest, hrest⟩ := edgesPositionsStage_prefix n m
  rw [hrest, List.getD_append _ _ _ _ (by rw [length_cubeCorners]; omega)]

theorem getD_facesStage (n : ℤ) (f i : ℕ) (h : i < 8) :
    ((facesStage n f).1).getD i default = cubeCorners.getD i default := by
  obtain ⟨rest, hrest⟩ := facesStage_fst_prefix n f
  rw [hrest, List.getD_append _ _ _ _ (by rw [length_cubeCorners]; omega)]



theorem buildStep_e1 (n : ℤ) :
    addEdgePositions 0 1 n cubeCorners = (edge0to1 n, edgesPositionsStage n 1) := rfl

theorem buildStep_e2 (n : ℤ) :
    addEdgePositions 1 2 n (edgesPositionsStage n 1) =
      (edge1to2 n, edgesPositionsStage n 2) := by
  rw [addEdgePositions_eq, length_edgesPositionsStage,
    getD_edgesPositionsStage n 1 1 (by norm_num),
    getD_edgesPositionsStage n 1 2 (by norm_num)]
  rfl

theorem buildStep_e3 (n : ℤ) :
    addEdgePositions 2 3 n (edgesPositionsStage n 2) =
      (edge2to3 n, edgesPositionsStage n 3) := by
  rw [addEdgePositions_eq, length_edgesPositionsStage,
    getD_edgesPositionsStage n 2 2 (by norm_num),
    getD_edgesPositionsStage n 2 3 (by norm_num)]
  rfl

theorem buildStep_e4 (n : ℤ) :
    addEdgePositions 3 0 n (edgesPositionsStage n 3) =
      (edge3to0 n, edgesPositionsStage n 4) := by
  rw [addEdgePositions_eq, length_edgesPositionsStage,
    getD_edgesPositionsStage n 3 3 (by norm_num),
    getD_edgesPositionsStage n 3 0 (by norm_num)]
  rfl

theorem buildStep_e5 (n : ℤ) :
    addEdgePositions 4 5 n (edgesPositionsStage n 4) =
      (edge4to5 n, edgesPositionsStage n 5) := by
  rw [addEdgePositions_eq, length_edgesPositionsStage,
    getD_edgesPositionsStage n 4 4 (by norm_num),
    getD_edgesPositionsStage n 4 5 (by norm_num)]
  rfl

theorem buildStep_e6 (n : ℤ) :
    addEdgePositions 5 6 n (edgesPositionsStage n 5) =
      (edge5to6 n, edgesPositionsStage n 6) := by
  rw [addEdgePositions_eq, length_edgesPositionsStage,
    getD_edgesPositionsStage n 5 5 (by norm_num),
    getD_edgesPositionsStage n 5 6 (by norm_num)]
  rfl

theorem buildStep_e7 (n : ℤ) :
    addEdgePositions 6 7 n (edgesPositionsStage n 6) =
      (edge6to7 n, edgesPositionsStage n 7) := by
  rw [addEdgePositions_eq, length_edgesPositionsStage,
    getD_edgesPositionsStage n 6 6 (by norm_num),
    getD_edgesPositionsStage n 6 7 (by norm_num)]
  rfl

theorem buildStep_e8 (n : ℤ) :
    addEdgePositions 7 4 n (edgesPositionsStage n 7) =
      (edge7to4 n, edgesPositionsStage n 8) := by
  rw [addEdgePositions_eq, length_edgesPositionsStage,
    getD_edgesPositionsStage n 7 7 (by norm_num),
    getD_edgesPositionsStage n 7 4 (by norm_num)]
  rfl

theorem buildStep_e9 (n : ℤ) :
    addEdgePositions 0 4 n (edgesPositionsStage n 8) =
      (edge0to4 n, edgesPositionsStage n 9) := by
  rw [addEdgePositions_eq, length_edgesPositionsStage,
    getD_edgesPositionsStage n 8 0 (by norm_num),
    getD_edgesPositionsStage n 8 4 (by norm_num)]
  rfl

theorem buildStep_e10 (n : ℤ) :
    addEdgePositions 1 5 n (edgesPositionsStage n 9) =
      (edge1to5 n, edgesPositionsStage n 10) := by
  rw [addEdgePositions_eq, length_edgesPositionsStage,
    getD_edgesPositionsStage n 9 1 (by norm_num),
    getD_edgesPositionsStage n 9 5 (by norm_num)]
  rfl

theorem buildStep_e11 (n : ℤ) :
    addEdgePositions 2 6 n (edgesPositionsStage n 10) =
      (edge2to6 n, edgesPositionsStage n 11) := by
  rw [addEdgePositions_eq, length_edgesPositionsStage,
    getD_edgesPositionsStage n 10 2 (by norm_num),
    getD_edgesPositionsStage n 10 6 (by norm_num)]
  rfl

theorem buildStep_e12 (n : ℤ) :
    addEdgePositions 3 7 n (edgesPositionsStage n 11) =
      (edge3to7 n, edgesPositionsStage n 12) := by
  rw [addEdgePositions_eq, length_edgesPositionsStage,
    getD_edgesPositionsStage n 11 3 (by norm_num),
    getD_edgesPositionsStage n 11 7 (by norm_num)]
  rfl

theorem buildStep_fo0 (n : ℤ) : faceOrigin (edge0to1 n) (edgesPositionsStage n 12) = ⟨-1, 0, -1⟩ := by
  unfold faceOrigin
  rw [show (edge0to1 n).getD 0 0 = 0 from rfl, getD_edgesPositionsStage n 12 0 (by norm_num)]
  rfl

theorem buildStep_fx0 (n : ℤ) : faceXdir (edge0to1 n) (edgesPositionsStage n 12) = ⟨1, -1, 0⟩ := by
  unfold faceXdir
  rw [buildStep_fo0]
  unfold edge0to1
  rw [edgeIdxList_getD_last, getD_edgesPositionsStage n 12 1 (by norm_num)]
  show Cartesian3.subtract ⟨0, -1, -1⟩ ⟨-1, 0, -1⟩ = ⟨1, -1, 0⟩
  norm_num [Cartesian3.subtract]

theorem buildStep_fy0 (n : ℤ) : faceYdir (edge0to1 n) (edge4to5 n) (edgesPositionsStage n 12) = ⟨0, 0, 2⟩ := by
  unfold faceYdir
  rw [buildStep_fo0, show (edge4to5 n).getD 0 0 = 4 from rfl, getD_edgesPositionsStage n 12 4 (by norm_num)]
  show Cartesian3.subtract ⟨-1, 0, 1⟩ ⟨-1, 0, -1⟩ = ⟨0, 0, 2⟩
  norm_num [Cartesian3.subtract]

theorem buildStep_f13 (n : ℤ) (h : 1 ≤ n) : addFaceTriangles (edge0to4 n) (edge0to1 n) (edge1to5 n) (edge4to5 n) n
    (edgesPositionsStage n 12) ([] : List ℕ) = facesStage n 1 := by
  rw [addFaceTriangles_eq _ _ _ _ n h, buildStep_fo0 n, buildStep_fx0 n, buildStep_fy0 n,
    show (edgesPositionsStage n 12).length = faceBase n 0 from by
      rw [length_edgesPositionsStage, faceBase]; ring]
  rfl

theorem buildStep_fo1 (n : ℤ) : faceOrigin (edge1to2 n) ((facesStage n 1).1) = ⟨0, -1, -1⟩ := by
  unfold faceOrigin
  rw [show (edge1to2 n).getD 0 0 = 1 from rfl, getD_facesStage n 1 1 (by norm_num)]
  rfl

theorem buildStep_fx1 (n : ℤ) : faceXdir (edge1to2 n) ((facesStage n 1).1) = ⟨1, 1, 0⟩ := by
  unfold faceXdir
  rw [buildStep_fo1]
  unfold edge1to2
  rw [edgeIdxList_getD_last, getD_facesStage n 1 2 (by norm_num)]
  show Cartesian3.subtract ⟨1, 0, -1⟩ ⟨0, -1, -1⟩ = ⟨1, 1, 0⟩
  norm_num [Cartesian3.subtract]

theorem buildStep_fy1 (n : ℤ) : faceYdir (edge1to2 n) (edge5to6 n) ((facesStage n 1).1) = ⟨0, 0, 2⟩ := by
  unfold faceYdir
  rw [buildStep_fo1, show (edge5to6 n).getD 0 0 = 5 from rfl, getD_facesStage n 1 5 (by norm_num)]
  show Cartesian3.subtract ⟨0, -1, 1⟩ ⟨0, -1, -1⟩ = ⟨0, 0, 2⟩
  norm_num [Cartesian3.subtract]

theorem buildStep_f14 (n : ℤ) (h : 1 ≤ n) : addFaceTriangles (edge1to5 n) (edge1to2 n) (edge2to6 n) (edge5to6 n) n
    ((facesStage n 1).1) ((facesStage n 1).2) = facesStage n 2 := by
  rw [addFaceTriangles_eq _ _ _ _ n h, buildStep_fo1 n, buildStep_fx1 n, buildStep_fy1 n, length_facesStage_fst]
  rfl

theorem buildStep_fo2 (n : ℤ) : faceOrigin (edge2to3 n) ((facesStage n 2).1) = ⟨1, 0, -1⟩ := by
  unfold faceOrigin
  rw [show (edge2to3 n).getD 0 0 = 2 from rfl, getD_facesStage n 2 2 (by norm_num)]
  rfl

theorem buildStep_fx2 (n : ℤ) : faceXdir (edge2to3 n) ((facesStage n 2).1) = ⟨-1, 1, 0⟩ := by
  unfold faceXdir
  rw [buildStep_fo2]
  unfold edge2to3
  rw [edgeIdxList_getD_last, getD_facesStage n 2 3 (by norm_num)]
  show Cartesian3.subtract ⟨0, 1, -1⟩ ⟨1, 0, -1⟩ = ⟨-1, 1, 0⟩
  norm_num [Cartesian3.subtract]

theorem buildStep_fy2 (n : ℤ) : faceYdir (edge2to3 n) (edge6to7 n) ((facesStage n 2).1) = ⟨0, 0, 2⟩ := by
  unfold faceYdir
  rw [buildStep_fo2, show (edge6to7 n).getD 0 0 = 6 from rfl, getD_facesStage n 2 6 (by norm_num)]
  show Cartesian3.subtract ⟨1, 0, 1⟩ ⟨1, 0, -1⟩ = ⟨0, 0, 2⟩
  norm_num [Cartesian3.subtract]

theorem buildStep_f15 (n : ℤ) (h : 1 ≤ n) : addFaceTriangles (edge2to6 n) (edge2to3 n) (edge3to7 n) (edge6to7 n) n
    ((facesStage n 2).1) ((facesStage n 2).2) = facesStage n 3 := by
  rw [addFaceTriangles_eq _ _ _ _ n h, buildStep_fo2 n, buildStep_fx2 n, buildStep_fy2 n, length_facesStage_fst]
  rfl

theorem buildStep_fo3 (n : ℤ) : faceOrigin (edge3to0 n) ((facesStage n 3).1) = ⟨0, 1, -1⟩ := by
  unfold faceOrigin
  rw [show (edge3to0 n).getD 0 0 = 3 from rfl, getD_facesStage n 3 3 (by norm_num)]
  rfl

theorem buildStep_fx3 (n : ℤ) : faceXdir (edge3to0 n) ((facesStage n 3).1) = ⟨-1, -1, 0⟩ := by
  unfold faceXdir
  rw [buildStep_fo3]
  unfold edge3to0
  rw [edgeIdxList_getD_last, getD_facesStage n 3 0 (by norm_num)]
  show Cartesian3.subtract ⟨-1, 0, -1⟩ ⟨0, 1, -1⟩ = ⟨-1, -1, 0⟩
  norm_num [Cartesian3.subtract]

theorem buildStep_fy3 (n : ℤ) : faceYdir (edge3to0 n) (edge7to4 n) ((facesStage n 3).1) = ⟨0, 0, 2⟩ := by
  unfold faceYdir
  rw [buildStep_fo3, show (edge7to4 n).getD 0 0 = 7 from rfl, getD_facesStage n 3 7 (by norm_num)]
  show Cartesian3.subtract ⟨0, 1, 1⟩ ⟨0, 1, -1⟩ = ⟨0, 0, 2⟩
  norm_num [Cartesian3.subtract]

theorem buildStep_f16 (n : ℤ) (h : 1 ≤ n) : addFaceTriangles (edge3to7 n) (edge3to0 n) (edge0to4 n) (edge7to4 n) n
    ((facesStage n 3).1) ((facesStage n 3).2) = facesStage n 4 := by
  rw [addFaceTriangles_eq _ _ _ _ n h, buildStep_fo3 n, buildStep_fx3 n, buildStep_fy3 n, length_facesStage_fst]
  rfl

theorem buildStep_fo4 (n : ℤ) : faceOrigin (edge4to5 n) ((facesStage n 4).1) = ⟨-1, 0, 1⟩ := by
  unfold faceOrigin
  rw [show (edge4to5 n).getD 0 0 = 4 from rfl, getD_facesStage n 4 4 (by norm_num)]
  rfl

theorem buildStep_fx4 (n : ℤ) : faceXdir (edge4to5 n) ((facesStage n 4).1) = ⟨1, -1, 0⟩ := by
  unfold faceXdir
  rw [buildStep_fo4]
  unfold edge4to5
  rw [edgeIdxList_getD_last, getD_facesStage n 4 5 (by norm_num)]
  show Cartesian3.subtract ⟨0, -1, 1⟩ ⟨-1, 0, 1⟩ = ⟨1, -1, 0⟩
  norm_num [Cartesian3.subtract]

theorem buildStep_fy4 (n : ℤ) : faceYdir (edge4to5 n) ((edge6to7 n).reverse) ((facesStage n 4).1) = ⟨1, 1, 0⟩ := by
  unfold faceYdir
  rw [buildStep_fo4]
  unfold edge6to7
  rw [edgeIdxList_reverse_getD_zero, getD_facesStage n 4 7 (by norm_num)]
  show Cartesian3.subtract ⟨0, 1, 1⟩ ⟨-1, 0, 1⟩ = ⟨1, 1, 0⟩
  norm_num [Cartesian3.subtract]

theorem buildStep_f17 (n : ℤ) (h : 1 ≤ n) : addFaceTriangles ((edge7to4 n).reverse) (edge4to5 n) (edge5to6 n) ((edge6to7 n).reverse) n
    ((facesStage n 4).1) ((facesStage n 4).2) = facesStage n 5 := by
  rw [addFaceTriangles_eq _ _ _ _ n h, buildStep_fo4 n, buildStep_fx4 n, buildStep_fy4 n, length_facesStage_fst]
  rfl

theorem buildStep_fo5 (n : ℤ) : faceOrigin ((edge0to1 n).reverse) ((facesStage n 5).1) = ⟨0, -1, -1⟩ := by
  unfold faceOrigin edge0to1
  rw [edgeIdxList_reverse_getD_zero, getD_facesStage n 5 1 (by norm_num)]
  rfl

theorem buildStep_fx5 (n : ℤ) : faceXdir ((edge0to1 n).reverse) ((facesStage n 5).1) = ⟨-1, 1, 0⟩ := by
  unfold faceXdir
  rw [buildStep_fo5]
  unfold edge0to1
  rw [edgeIdxList_reverse_getD_last, getD_facesStage n 5 0 (by norm_num)]
  show Cartesian3.subtract ⟨-1, 0, -1⟩ ⟨0, -1, -1⟩ = ⟨-1, 1, 0⟩
  norm_num [Cartesian3.subtract]

theorem buildStep_fy5 (n : ℤ) : faceYdir ((edge0to1 n).reverse) (edge2to3 n) ((facesStage n 5).1) = ⟨1, 1, 0⟩ := by
  unfold faceYdir
  rw [buildStep_fo5, show (edge2to3 n).getD 0 0 = 2 from rfl, getD_facesStage n 5 2 (by norm_num)]
  show Cartesian3.subtract ⟨1, 0, -1⟩ ⟨0, -1, -1⟩ = ⟨1, 1, 0⟩
  norm_num [Cartesian3.subtract]

theorem buildStep_f18 (n : ℤ) (h : 1 ≤ n) : addFaceTriangles (edge1to2 n) ((edge0to1 n).reverse) ((edge3to0 n).reverse) (edge2to3 n) n
    ((facesStage n 5).1) ((facesStage n 5).2) = facesStage n 6 := by
  rw [addFaceTriangles_eq _ _ _ _ n h, buildStep_fo5 n, buildStep_fx5 n, buildStep_fy5 n, length_facesStage_fst]
  rfl

set_option maxHeartbeats 4000000 in
theorem buildCubeTopology_eq (n : ℤ) (h : 1 ≤ n) :
    buildCubeTopology n = (finalPositions n, finalIndices n) := by
  simp only [buildCubeTopology, buildStep_e1, buildStep_e2, buildStep_e3, buildStep_e4,
    buildStep_e5, buildStep_e6, buildStep_e7, buildStep_e8, buildStep_e9, buildStep_e10,
    buildStep_e11, buildStep_e12, buildStep_f13 n h, buildStep_f14 n h, buildStep_f15 n h,
    buildStep_f16 n h, buildStep_f17 n h, buildStep_f18 n h]
  rfl

theorem length_facesStage_snd (n : ℤ) :
    ∀ f, ((facesStage n f).2).length = f * (6 * (n.toNat * n.toNat))
  | 0 => by simp [facesStage]
  | f + 1 => by
    rw [facesStage]
    show ((facesStage n f).2 ++ _).length = _
    rw [List.length_append, length_facesStage_snd n f, length_faceIndices]
    ring

/-! ## The claims -/

/-- C2: for every integer partition count `N ≥ 1`, the constructor produces a
position buffer of length exactly `8 + 12·(N−1) + 6·(N−1)²` (8 cube corners,
`N−1` interior points for each of the 12 edges, `(N−1)²` interior grid points
for each of the 6 faces). -/
theorem C2_position_count (n : ℤ) (h : 1 ≤ n) :
    ((buildCubeTopology n).1).length =
      8 + 12 * (n - 1).toNat + 6 * (n - 1).toNat ^ 2 := by
  rw [buildCubeTopology_eq n h]
  show (finalPositions n).length = _
  rw [finalPositions, length_facesStage_fst, faceBase]
  ring

/-- Witness for C2 at `N = 2`: the position count is `8 + 12 + 6 = 26`. -/
theorem C2_position_count_witness :
    ((buildCubeTopology 2).1).length =
      8 + 12 * ((2 : ℤ) - 1).toNat + 6 * ((2 : ℤ) - 1).toNat ^ 2 :=
  C2_position_count 2 (by norm_num)

/-- C3: for every integer partition count `N ≥ 1`, the constructor produces an
index buffer encoding exactly `12·N²` triangles: the flat index sequence has
length `36·N²`. -/
theorem C3_triangle_count (n : ℤ) (h : 1 ≤ n) :
    ((buildCubeTopology n).2).length = 36 * n.toNat ^ 2 := by
  rw [buildCubeTopology_eq n h]
  show (finalIndices n).length = _
  rw [finalIndices, length_facesStage_snd]
  ring

/-- Witness for C3 at `N = 2`: the index buffer has length `144 = 36·4`. -/
theorem C3_triangle_count_witness :
    ((buildCubeTopology 2).2).length = 36 * ((2 : ℤ)).toNat ^ 2 :=
  C3_triangle_count 2 (by norm_num)

/-- C5: the constructor raises the DeveloperError exactly when the effective
`numberOfPartitions` (defaulted to 32) is `≤ 0`, before any buffer work, and
produces a geometry otherwise. -/
theorem C5_invalid_partition_count (options : EllipsoidGeometryOptions) :
    (options.numberOfPartitions.getD 32 ≤ 0 →
      EllipsoidGeometry options =
        Except.error ⟨"options.numberOfPartitions must be greater than zero."⟩) ∧
    (0 < options.numberOfPartitions.getD 32 →
      ∃ g, EllipsoidGeometry options = Except.ok g) := by
  constructor
  · intro hle
    rw [EllipsoidGeometry, if_pos hle]
  · intro hpos
    rw [EllipsoidGeometry, if_neg (by omega)]
    exact ⟨_, rfl⟩

/-- Witness for C5: `numberOfPartitions = 0` errors, `numberOfPartitions = 2`
succeeds. -/
theorem C5_invalid_partition_count_witness :
    EllipsoidGeometry ⟨none, some 0, none⟩ =
      Except.error ⟨"options.numberOfPartitions must be greater than zero."⟩ ∧
    ∃ g, EllipsoidGeometry ⟨none, some 2, none⟩ = Except.ok g :=
  ⟨(C5_invalid_partition_count ⟨none, some 0, none⟩).1 (by norm_num),
   (C5_invalid_partition_count ⟨none, some 2, none⟩).2 (by norm_num)⟩

/-- C6: `addEdgePositions` returns a list of length `N+1` whose first element
is `startIndex` and last element is `endIndex`; its element at position
`k` (for `1 ≤ k ≤ N−1`) references the newly appended position
`positions[startIndex] + (positions[endIndex] − positions[startIndex])·(k/N)`,
and the position buffer grows by exactly `N−1` entries, so every interior
point lies on the straight line between the two corners. -/
theorem C6_addEdgePositions_spec (i0 i1 : ℕ) (n : ℤ) (ps : List Cartesian3)
    (h : 1 ≤ n) (h0 : i0 < ps.length) (h1 : i1 < ps.length) :
    ((addEdgePositions i0 i1 n ps).1).length = n.toNat + 1 ∧
    ((addEdgePositions i0 i1 n ps).1).getD 0 0 = i0 ∧
    ((addEdgePositions i0 i1 n ps).1).getD n.toNat 0 = i1 ∧
    ((addEdgePositions i0 i1 n ps).2).length = ps.length + (n - 1).toNat ∧
    (∀ k : ℕ, 1 ≤ k → k ≤ (n - 1).toNat →
      ((addEdgePositions i0 i1 n ps).1).getD k 0 = ps.length + (k - 1) ∧
      ((addEdgePositions i0 i1 n ps).2).getD (ps.length + (k - 1)) default =
        (ps.getD i0 default).add
          (((ps.getD i1 default).subtract (ps.getD i0 default)).multiplyByScalar
            ((k : ℚ) / (n : ℚ)))) := by
  rw [addEdgePositions_eq]
  refine ⟨?_, rfl, ?_, ?_, ?_⟩
  · rw [length_edgeIdxList]
    omega
  · rw [show n.toNat = (edgeIdxList ps.length i0 i1 n).length - 1 from by
      rw [length_edgeIdxList]; omega]
    exact edgeIdxList_getD_last ps.length i0 i1 n 0
  · simp
  · intro k hk1 hk2
    constructor
    · rw [edgeIdxList, show k = (k - 1) + 1 from by omega, List.getD_cons_succ,
        List.getD_append _ _ _ _ (by simp; omega),
        List.getD_eq_getElem _ _ (by simp; omega)]
      simp
    · rw [List.getD_append_right _ _ _ _ (Nat.le_add_right _ _),
        Nat.add_sub_cancel_left, edgeBlock,
        List.getD_eq_getElem _ _ (by simp; omega)]
      rw [List.getElem_map, List.getElem_range]
      have : ((k - 1 : ℕ) : ℚ) + 1 = (k : ℚ) := by
        have : (1 : ℕ) ≤ k := hk1
        push_cast [Nat.cast_sub this]
        ring
      rw [this]

/-- Witness for C6 at the first edge call of the construction
(`i0 = 0`, `i1 = 1`, `N = 2`, on the cube corners). -/
theorem C6_addEdgePositions_spec_witness :
    ((addEdgePositions 0 1 2 cubeCorners).1).length = (2 : ℤ).toNat + 1 ∧
    ((addEdgePositions 0 1 2 cubeCorners).1).getD 0 0 = 0 ∧
    ((addEdgePositions 0 1 2 cubeCorners).1).getD (2 : ℤ).toNat 0 = 1 ∧
    ((addEdgePositions 0 1 2 cubeCorners).2).length =
      cubeCorners.length + ((2 : ℤ) - 1).toNat ∧
    (∀ k : ℕ, 1 ≤ k → k ≤ ((2 : ℤ) - 1).toNat →
      ((addEdgePositions 0 1 2 cubeCorners).1).getD k 0 = cubeCorners.length + (k - 1) ∧
      ((addEdgePositions 0 1 2 cubeCorners).2).getD (cubeCorners.length + (k - 1)) default =
        (cubeCorners.getD 0 default).add
          (((cubeCorners.getD 1 default).subtract (cubeCorners.getD 0 default)).multiplyByScalar
            ((k : ℚ) / ((2 : ℤ) : ℚ)))) :=
  C6_addEdgePositions_spec 0 1 2 cubeCorners (by norm_num) (by norm_num) (by norm_num)

theorem addFaceTriangles_of_lt_one (l b r t : List ℕ) (n : ℤ) (hn : n < 1)
    (ps : List Cartesian3) (ix : List ℕ) :
    addFaceTriangles l b r t n ps ix = (ps, ix) := by
  rw [addFaceTriangles, addFaceTrianglesLoop, if_neg (by omega)]

/-- C9: `addEdgePositions` and `addFaceTriangles` only append to the shared
position buffer (and `addFaceTriangles` only appends to the index buffer):
every position stored at an index valid before the call is unchanged after the
call.  (In this embedding the edge index lists are passed by value and cannot
be modified, matching the source, which never writes to them.)  Existing
positions are only mutated later, by the in-place projection step of the
constructor. -/
theorem C9_append_only (l b r t : List ℕ) (i0 i1 : ℕ) (n : ℤ)
    (ps : List Cartesian3) (ix : List ℕ) :
    (∃ tail, (addEdgePositions i0 i1 n ps).2 = ps ++ tail) ∧
    (∃ tail, (addFaceTriangles l b r t n ps ix).1 = ps ++ tail) ∧
    (∃ tail, (addFaceTriangles l b r t n ps ix).2 = ix ++ tail) ∧
    (∀ j : ℕ, j < ps.length →
      ((addEdgePositions i0 i1 n ps).2).getD j default = ps.getD j default) ∧
    (∀ j : ℕ, j < ps.length →
      ((addFaceTriangles l b r t n ps ix).1).getD j default = ps.getD j default) := by
  have hface1 : ∃ tail, (addFaceTriangles l b r t n ps ix).1 = ps ++ tail := by
    by_cases hn : 1 ≤ n
    · refine ⟨faceInteriorPositions (faceOrigin b ps) (faceXdir b ps) (faceYdir b t ps) n, ?_⟩
      rw [addFaceTriangles_eq l b r t n hn ps ix]
    · refine ⟨[], ?_⟩
      rw [addFaceTriangles_of_lt_one l b r t n (by omega) ps ix, List.append_nil]
  have hface2 : ∃ tail, (addFaceTriangles l b r t n ps ix).2 = ix ++ tail := by
    by_cases hn : 1 ≤ n
    · refine ⟨faceIndices l b r t n ps.length, ?_⟩
      rw [addFaceTriangles_eq l b r t n hn ps ix]
    · refine ⟨[], ?_⟩
      rw [addFaceTriangles_of_lt_one l b r t n (by omega) ps ix, List.append_nil]
  refine ⟨⟨_, rfl⟩, hface1, hface2, ?_, ?_⟩
  · intro j hj
    rw [addEdgePositions_eq]
    exact List.getD_append _ _ _ _ hj
  · intro j hj
    obtain ⟨tail, htail⟩ := hface1
    rw [htail]
    exact List.getD_append _ _ _ _ hj

/-- Witness for C9 at a concrete call (`N = 2`, cube corners, first edge and
first face call data), reading back preserved entry `3`. -/
theorem C9_append_only_witness :
    (∃ tail, (addEdgePositions 0 1 2 cubeCorners).2 = cubeCorners ++ tail) ∧
    ((addFaceTriangles [0, 1] [0, 1] [0, 1] [0, 1] 2 cubeCorners []).1).getD 3 default =
      cubeCorners.getD 3 default :=
  ⟨(C9_append_only [0, 1] [0, 1] [0, 1] [0, 1] 0 1 2 cubeCorners []).1,
   (C9_append_only [0, 1] [0, 1] [0, 1] [0, 1] 0 1 2 cubeCorners []).2.2.2.2 3 (by norm_num)⟩

/-- C7: for every row `j = 1..N` and cell `k = 0..N−1`, `addFaceTriangles`
appends exactly two triangles, in order `(bottom[k], bottom[k+1], top[k+1])`
then `(bottom[k], top[k+1], top[k])`, where `bottom` and `top` are the index
rows at heights `j−1` and `j` (`faceRowAt`: the bottom edge list at height 0,
the top edge list at height `N`, and the freshly built interior rows in
between); the same pattern is used for every cell of every row. -/
theorem C7_face_triangle_pattern (l b r t : List ℕ) (n : ℤ) (h : 1 ≤ n)
    (ps : List Cartesian3) (ix : List ℕ) :
    (addFaceTriangles l b r t n ps ix).2 =
      ix ++ (List.range n.toNat).flatMap (fun (jm : ℕ) =>
        (List.range n.toNat).flatMap (fun (k : ℕ) =>
          [(faceRowAt l b r t n ps.length (jm : ℤ)).getD k 0,
           (faceRowAt l b r t n ps.length (jm : ℤ)).getD (k + 1) 0,
           (faceRowAt l b r t n ps.length ((jm : ℤ) + 1)).getD (k + 1) 0,
           (faceRowAt l b r t n ps.length (jm : ℤ)).getD k 0,
           (faceRowAt l b r t n ps.length ((jm : ℤ) + 1)).getD (k + 1) 0,
           (faceRowAt l b r t n ps.length ((jm : ℤ) + 1)).getD k 0])) := by
  rw [addFaceTriangles_eq l b r t n h ps ix, faceIndices, rowsFrom_eq_flatMap]
  dsimp only
  congr 2
  funext jm
  rw [show (1 : ℤ) + (jm : ℤ) - 1 = (jm : ℤ) from by ring,
    show (1 : ℤ) + (jm : ℤ) = (jm : ℤ) + 1 from by ring]
  rfl

/-- Witness for C7 at a concrete call (`N = 1`, degenerate edge lists). -/
theorem C7_face_triangle_pattern_witness :
    (addFaceTriangles [0, 1] [0, 1] [0, 1] [0, 1] 1 cubeCorners []).2 =
      [] ++ (List.range (1 : ℤ).toNat).flatMap (fun (jm : ℕ) =>
        (List.range (1 : ℤ).toNat).flatMap (fun (k : ℕ) =>
          [(faceRowAt [0, 1] [0, 1] [0, 1] [0, 1] 1 cubeCorners.length (jm : ℤ)).getD k 0,
           (faceRowAt [0, 1] [0, 1] [0, 1] [0, 1] 1 cubeCorners.length (jm : ℤ)).getD (k + 1) 0,
           (faceRowAt [0, 1] [0, 1] [0, 1] [0, 1] 1 cubeCorners.length ((jm : ℤ) + 1)).getD (k + 1) 0,
           (faceRowAt [0, 1] [0, 1] [0, 1] [0, 1] 1 cubeCorners.length (jm : ℤ)).getD k 0,
           (faceRowAt [0, 1] [0, 1] [0, 1] [0, 1] 1 cubeCorners.length ((jm : ℤ) + 1)).getD (k + 1) 0,
           (faceRowAt [0, 1] [0, 1] [0, 1] [0, 1] 1 cubeCorners.length ((jm : ℤ) + 1)).getD k 0])) :=
  C7_face_triangle_pattern [0, 1] [0, 1] [0, 1] [0, 1] 1 (by norm_num) cubeCorners []

/-! ## Bounds machinery for the safety claim -/

/-- Every element of `l` is below `m`. -/
def allLt (l : List ℕ) (m : ℕ) : Prop := ∀ a ∈ l, a < m

theorem allLt_getD (l : List ℕ) (m k : ℕ) (h : allLt l m) (h0 : 0 < m) :
    l.getD k 0 < m := by
  by_cases hk : k < l.length
  · rw [List.getD_eq_getElem _ _ hk]
    exact h _ (List.getElem_mem hk)
  · rw [List.getD_eq_default _ _ (by omega)]
    exact h0

theorem allLt_reverse (l : List ℕ) (m : ℕ) (h : allLt l m) : allLt l.reverse m := by
  intro a ha
  exact h a (List.mem_reverse.mp ha)

theorem allLt_rowTriangles (b t : List ℕ) (n : ℤ) (m : ℕ)
    (hb : allLt b m) (ht : allLt t m) (h0 : 0 < m) :
    allLt (rowTriangles b t n) m := by
  intro a ha
  rw [rowTriangles] at ha
  simp only [List.mem_flatMap, List.mem_range, List.mem_cons,
    List.not_mem_nil, or_false] at ha
  obtain ⟨k, _, hmem⟩ := ha
  rcases hmem with rfl | rfl | rfl | rfl | rfl | rfl
  · exact allLt_getD b m k hb h0
  · exact allLt_getD b m (k + 1) hb h0
  · exact allLt_getD t m (k + 1) ht h0
  · exact allLt_getD b m k hb h0
  · exact allLt_getD t m (k + 1) ht h0
  · exact allLt_getD t m k ht h0

theorem allLt_faceRowIdx (left right : List ℕ) (n : ℤ) (s : ℕ) (j : ℤ) (m : ℕ)
    (hl : allLt left m) (hr : allLt right m) (hs : s + (n - 1).toNat ≤ m)
    (h0 : 0 < m) :
    allLt (faceRowIdx left right n s j) m := by
  intro a ha
  rw [faceRowIdx] at ha
  simp only [List.mem_cons, List.mem_append, List.mem_map, List.mem_range,
    List.not_mem_nil, or_false] at ha
  rcases ha with rfl | ⟨i, hi, rfl⟩ | rfl
  · exact allLt_getD left m _ hl h0
  · omega
  · exact allLt_getD right m _ hr h0

theorem allLt_faceRowAt (l b r t : List ℕ) (n : ℤ) (base : ℕ) (j : ℤ) (m : ℕ)
    (hb : allLt b m) (hl : allLt l m) (hr : allLt r m) (ht : allLt t m)
    (hj : j ≤ n)
    (hbase : base + (n - 1).toNat * (n - 1).toNat ≤ m) (h0 : 0 < m) :
    allLt (faceRowAt l b r t n base j) m := by
  unfold faceRowAt
  split
  · exact hb
  split
  · exact ht
  refine allLt_faceRowIdx l r n _ j m hl hr ?_ h0
  rename_i hj0 hjn
  have hE : (j - 1).toNat + 1 ≤ (n - 1).toNat ∨ (n - 1).toNat = 0 := by omega
  rcases hE with hE | hE
  · have := Nat.mul_le_mul_right (n - 1).toNat hE
    rw [Nat.add_mul, Nat.one_mul] at this
    omega
  · rw [hE]
    simp only [Nat.mul_zero, Nat.add_zero] at hbase ⊢
    omega

theorem allLt_rowsFrom (f : ℤ → List ℕ) (m : ℕ) :
    ∀ (k : ℕ) (j : ℤ), (∀ jj, j ≤ jj → jj < j + k → allLt (f jj) m) →
      allLt (rowsFrom f j k) m
  | 0, j, _ => by
    intro a ha
    cases ha
  | k + 1, j, hf => by
    intro a ha
    rw [rowsFrom] at ha
    rcases List.mem_append.mp ha with hmem | hmem
    · exact hf j le_rfl (by omega) a hmem
    · exact allLt_rowsFrom f m k (j + 1)
        (fun jj h1 h2 => hf jj (by omega) (by omega)) a hmem

theorem allLt_faceIndices (l b r t : List ℕ) (n : ℤ) (base m : ℕ)
    (hb : allLt b m) (hl : allLt l m) (hr : allLt r m) (ht : allLt t m)
    (hbase : base + (n - 1).toNat * (n - 1).toNat ≤ m) (h0 : 0 < m) :
    allLt (faceIndices l b r t n base) m := by
  rw [faceIndices]
  refine allLt_rowsFrom _ m n.toNat 1 ?_
  intro jj h1 h2
  refine allLt_rowTriangles _ _ n m ?_ ?_ h0
  · exact allLt_faceRowAt l b r t n base (jj - 1) m hb hl hr ht (by omega) hbase h0
  · exact allLt_faceRowAt l b r t n base jj m hb hl hr ht (by omega) hbase h0

theorem allLt_edgeIdxList (base i0 i1 : ℕ) (n : ℤ) (m : ℕ)
    (h0 : i0 < m) (h1 : i1 < m) (hb : base + (n - 1).toNat ≤ m) :
    allLt (edgeIdxList base i0 i1 n) m := by
  intro a ha
  rw [edgeIdxList] at ha
  simp only [List.mem_cons, List.mem_append, List.mem_map, List.mem_range,
    List.not_mem_nil, or_false] at ha
  rcases ha with rfl | ⟨k, hk, rfl⟩ | rfl
  · exact h0
  · omega
  · exact h1

theorem allLt_facesStage_snd (n : ℤ) :
    ∀ f, f ≤ 6 → allLt ((facesStage n f).2) (faceBase n 6) := by
  have h0 : 0 < faceBase n 6 := by rw [faceBase]; omega
  intro f
  induction f with
  | zero =>
    intro _ a ha
    simp [facesStage] at ha
  | succ f IH =>
    intro hf a ha
    rw [facesStage] at ha
    dsimp only at ha
    rcases List.mem_append.mp ha with hmem | hmem
    · exact IH (by omega) a hmem
    · have hface : allLt (faceIndices (faceEdges n f).1 (faceEdges n f).2.1
          (faceEdges n f).2.2.1 (faceEdges n f).2.2.2 n (faceBase n f)) (faceBase n 6) := by
        have hf5 : f ≤ 5 := by omega
        interval_cases f
        · exact allLt_faceIndices _ _ _ _ n _ _
            (allLt_edgeIdxList 8 0 1 n _ (by rw [faceBase]; omega) (by rw [faceBase]; omega)
              (by simp only [faceBase]; omega))
            (allLt_edgeIdxList (8 + 8 * (n - 1).toNat) 0 4 n _ (by rw [faceBase]; omega)
              (by rw [faceBase]; omega) (by simp only [faceBase]; omega))
            (allLt_edgeIdxList (8 + 9 * (n - 1).toNat) 1 5 n _ (by rw [faceBase]; omega)
              (by rw [faceBase]; omega) (by simp only [faceBase]; omega))
            (allLt_edgeIdxList (8 + 4 * (n - 1).toNat) 4 5 n _ (by rw [faceBase]; omega)
              (by rw [faceBase]; omega) (by simp only [faceBase]; omega))
            (by simp only [faceBase]; omega) h0
        · exact allLt_faceIndices _ _ _ _ n _ _
            (allLt_edgeIdxList (8 + 1 * (n - 1).toNat) 1 2 n _ (by rw [faceBase]; omega)
              (by rw [faceBase]; omega) (by simp only [faceBase]; omega))
            (allLt_edgeIdxList (8 + 9 * (n - 1).toNat) 1 5 n _ (by rw [faceBase]; omega)
              (by rw [faceBase]; omega) (by simp only [faceBase]; omega))
            (allLt_edgeIdxList (8 + 10 * (n - 1).toNat) 2 6 n _ (by rw [faceBase]; omega)
              (by rw [faceBase]; omega) (by simp only [faceBase]; omega))
            (allLt_edgeIdxList (8 + 5 * (n - 1).toNat) 5 6 n _ (by rw [faceBase]; omega)
              (by rw [faceBase]; omega) (by simp only [faceBase]; omega))
            (by simp only [faceBase]; omega) h0
        · exact allLt_faceIndices _ _ _ _ n _ _
            (allLt_edgeIdxList (8 + 2 * (n - 1).toNat) 2 3 n _ (by rw [faceBase]; omega)
              (by rw [faceBase]; omega) (by simp only [faceBase]; omega))
            (allLt_edgeIdxList (8 + 10 * (n - 1).toNat) 2 6 n _ (by rw [faceBase]; omega)
              (by rw [faceBase]; omega) (by simp only [faceBase]; omega))
            (allLt_edgeIdxList (8 + 11 * (n - 1).toNat) 3 7 n _ (by rw [faceBase]; omega)
              (by rw [faceBase]; omega) (by simp only [faceBase]; omega))
            (allLt_edgeIdxList (8 + 6 * (n - 1).toNat) 6 7 n _ (by rw [faceBase]; omega)
              (by rw [faceBase]; omega) (by simp only [faceBase]; omega))
            (by simp only [faceBase]; omega) h0
        · exact allLt_faceIndices _ _ _ _ n _ _
            (allLt_edgeIdxList (8 + 3 * (n - 1).toNat) 3 0 n _ (by rw [faceBase]; omega)
              (by rw [faceBase]; omega) (by simp only [faceBase]; omega))
            (allLt_edgeIdxList (8 + 11 * (n - 1).toNat) 3 7 n _ (by rw [faceBase]; omega)
              (by rw [faceBase]; omega) (by simp only [faceBase]; omega))
            (allLt_edgeIdxList (8 + 8 * (n - 1).toNat) 0 4 n _ (by rw [faceBase]; omega)
              (by rw [faceBase]; omega) (by simp only [faceBase]; omega))
            (allLt_edgeIdxList (8 + 7 * (n - 1).toNat) 7 4 n _ (by rw [faceBase]; omega)
              (by rw [faceBase]; omega) (by simp only [faceBase]; omega))
            (by simp only [faceBase]; omega) h0
        · exact allLt_faceIndices _ _ _ _ n _ _
            (allLt_edgeIdxList (8 + 4 * (n - 1).toNat) 4 5 n _ (by rw [faceBase]; omega)
              (by rw [faceBase]; omega) (by simp only [faceBase]; omega))
            (allLt_reverse _ _ (allLt_edgeIdxList (8 + 7 * (n - 1).toNat) 7 4 n _
              (by rw [faceBase]; omega) (by rw [faceBase]; omega)
              (by simp only [faceBase]; omega)))
            (allLt_edgeIdxList (8 + 5 * (n - 1).toNat) 5 6 n _ (by rw [faceBase]; omega)
              (by rw [faceBase]; omega) (by simp only [faceBase]; omega))
            (allLt_reverse _ _ (allLt_edgeIdxList (8 + 6 * (n - 1).toNat) 6 7 n _
              (by rw [faceBase]; omega) (by rw [faceBase]; omega)
              (by simp only [faceBase]; omega)))
            (by simp only [faceBase]; omega) h0
        · exact allLt_faceIndices _ _ _ _ n _ _
            (allLt_reverse _ _ (allLt_edgeIdxList 8 0 1 n _ (by rw [faceBase]; omega)
              (by rw [faceBase]; omega) (by simp only [faceBase]; omega)))
            (allLt_edgeIdxList (8 + 1 * (n - 1).toNat) 1 2 n _ (by rw [faceBase]; omega)
              (by rw [faceBase]; omega) (by simp only [faceBase]; omega))
            (allLt_reverse _ _ (allLt_edgeIdxList (8 + 3 * (n - 1).toNat) 3 0 n _
              (by rw [faceBase]; omega) (by rw [faceBase]; omega)
              (by simp only [faceBase]; omega)))
            (allLt_edgeIdxList (8 + 2 * (n - 1).toNat) 2 3 n _ (by rw [faceBase]; omega)
              (by rw [faceBase]; omega) (by simp only [faceBase]; omega))
            (by simp only [faceBase]; omega) h0
      exact hface a hmem

/-- C8: for every `N ≥ 1`, every index in the final triangle index buffer is
below the final position count, every corner index read by the twelve
`addEdgePositions` calls is in bounds of the buffer at the time of the call,
and the three basis reads of each of the six `addFaceTriangles` calls
(`bottom[0]`, `bottom[last]`, `top[0]`) are in bounds of the buffer at the
time of the call. -/
theorem C8_no_out_of_bounds (n : ℤ) (h : 1 ≤ n) :
    (∀ a ∈ (buildCubeTopology n).2, a < ((buildCubeTopology n).1).length) ∧
    (∀ m : ℕ, m < 12 →
      (edgeCornerPairs.getD m (0, 0)).1 < (edgesPositionsStage n m).length ∧
      (edgeCornerPairs.getD m (0, 0)).2 < (edgesPositionsStage n m).length) ∧
    (∀ f : ℕ, f < 6 →
      (faceEdges n f).2.1.getD 0 0 < ((facesStage n f).1).length ∧
      (faceEdges n f).2.1.getD ((faceEdges n f).2.1.length - 1) 0 <
        ((facesStage n f).1).length ∧
      (faceEdges n f).2.2.2.getD 0 0 < ((facesStage n f).1).length) := by
  refine ⟨?_, ?_, ?_⟩
  · intro a ha
    rw [buildCubeTopology_eq n h] at ha ⊢
    dsimp only at ha ⊢
    rw [finalPositions, length_facesStage_fst]
    exact allLt_facesStage_snd n 6 le_rfl a ha
  · intro m hm
    rw [length_edgesPositionsStage]
    have hp : (edgeCornerPairs.getD m (0, 0)).1 < 8 ∧
        (edgeCornerPairs.getD m (0, 0)).2 < 8 := by
      interval_cases m <;> simp [edgeCornerPairs]
    omega
  · intro f hf
    rw [length_facesStage_fst]
    have h8 : 8 ≤ faceBase n f := by rw [faceBase]; omega
    interval_cases f
    · refine ⟨?_, ?_, ?_⟩
      · rw [show (faceEdges n 0).2.1.getD 0 0 = 0 from rfl]; omega
      · rw [show (faceEdges n 0).2.1 = edge0to1 n from rfl, edge0to1,
          edgeIdxList_getD_last]; omega
      · rw [show (faceEdges n 0).2.2.2.getD 0 0 = 4 from rfl]; omega
    · refine ⟨?_, ?_, ?_⟩
      · rw [show (faceEdges n 1).2.1.getD 0 0 = 1 from rfl]; omega
      · rw [show (faceEdges n 1).2.1 = edge1to2 n from rfl, edge1to2,
          edgeIdxList_getD_last]; omega
      · rw [show (faceEdges n 1).2.2.2.getD 0 0 = 5 from rfl]; omega
    · refine ⟨?_, ?_, ?_⟩
      · rw [show (faceEdges n 2).2.1.getD 0 0 = 2 from rfl]; omega
      · rw [show (faceEdges n 2).2.1 = edge2to3 n from rfl, edge2to3,
          edgeIdxList_getD_last]; omega
      · rw [show (faceEdges n 2).2.2.2.getD 0 0 = 6 from rfl]; omega
    · refine ⟨?_, ?_, ?_⟩
      · rw [show (faceEdges n 3).2.1.getD 0 0 = 3 from rfl]; omega
      · rw [show (faceEdges n 3).2.1 = edge3to0 n from rfl, edge3to0,
          edgeIdxList_getD_last]; omega
      · rw [show (faceEdges n 3).2.2.2.getD 0 0 = 7 from rfl]; omega
    · refine ⟨?_, ?_, ?_⟩
      · rw [show (faceEdges n 4).2.1.getD 0 0 = 4 from rfl]; omega
      · rw [show (faceEdges n 4).2.1 = edge4to5 n from rfl, edge4to5,
          edgeIdxList_getD_last]; omega
      · rw [show (faceEdges n 4).2.2.2 = (edge6to7 n).reverse from rfl, edge6to7,
          edgeIdxList_reverse_getD_zero]; omega
    · refine ⟨?_, ?_, ?_⟩
      · rw [show (faceEdges n 5).2.1 = (edge0to1 n).reverse from rfl, edge0to1,
          edgeIdxList_reverse_getD_zero]; omega
      · rw [show (faceEdges n 5).2.1 = (edge0to1 n).reverse from rfl, edge0to1,
          edgeIdxList_reverse_getD_last]; omega
      · rw [show (faceEdges n 5).2.2.2.getD 0 0 = 2 from rfl]; omega

/-- Witness for C8 at `N = 2`. -/
theorem C8_no_out_of_bounds_witness :
    (∀ a ∈ (buildCubeTopology 2).2, a < ((buildCubeTopology 2).1).length) ∧
    (∀ m : ℕ, m < 12 →
      (edgeCornerPairs.getD m (0, 0)).1 < (edgesPositionsStage 2 m).length ∧
      (edgeCornerPairs.getD m (0, 0)).2 < (edgesPositionsStage 2 m).length) ∧
    (∀ f : ℕ, f < 6 →
      (faceEdges 2 f).2.1.getD 0 0 < ((facesStage 2 f).1).length ∧
      (faceEdges 2 f).2.1.getD ((faceEdges 2 f).2.1.length - 1) 0 <
        ((facesStage 2 f).1).length ∧
      (faceEdges 2 f).2.2.2.getD 0 0 < ((facesStage 2 f).1).length) :=
  C8_no_out_of_bounds 2 (by norm_num)

/-! ## Claims about the constructor's attribute assembly -/

instance : Inhabited R3 := ⟨⟨0, 0, 0⟩⟩

theorem flattenR3_cons (p : R3) (rest : List R3) :
    flattenR3 (p :: rest) = p.x :: p.y :: p.z :: flattenR3 rest := rfl

theorem flattenR3_getD (l : List R3) (i : ℕ) (h : i < l.length) :
    (flattenR3 l).getD (3 * i) 0 = (l.getD i default).x ∧
    (flattenR3 l).getD (3 * i + 1) 0 = (l.getD i default).y ∧
    (flattenR3 l).getD (3 * i + 2) 0 = (l.getD i default).z := by
  induction l generalizing i with
  | nil => simp at h
  | cons p rest IH =>
    cases i with
    | zero => exact ⟨rfl, rfl, rfl⟩
    | succ i =>
      have hlen : i < rest.length := by simpa using h
      obtain ⟨hx, hy, hz⟩ := IH i hlen
      refine ⟨?_, ?_, ?_⟩
      · rw [flattenR3_cons, show 3 * (i + 1) = 3 * i + 1 + 1 + 1 from by ring,
          List.getD_cons_succ, List.getD_cons_succ, List.getD_cons_succ,
          List.getD_cons_succ]
        exact hx
      · rw [flattenR3_cons, show 3 * (i + 1) + 1 = 3 * i + 1 + 1 + 1 + 1 from by ring,
          List.getD_cons_succ, List.getD_cons_succ, List.getD_cons_succ,
          List.getD_cons_succ]
        exact hy
      · rw [flattenR3_cons, show 3 * (i + 1) + 2 = 3 * i + 2 + 1 + 1 + 1 from by ring,
          List.getD_cons_succ, List.getD_cons_succ, List.getD_cons_succ,
          List.getD_cons_succ]
        exact hz

theorem getD_map_default {α β : Type} [Inhabited α] [Inhabited β] (f : α → β)
    (l : List α) (i : ℕ) (h : i < l.length) :
    (l.map f).getD i default = f (l.getD i default) := by
  rw [List.getD_eq_getElem _ _ (by simpa using h), List.getD_eq_getElem _ _ h,
    List.getElem_map]

/-- C10: when the position attribute is not requested, the projection loop
never runs: no position attribute appears in the output, and the normal
attribute (when requested) is the geodetic surface normal of the unprojected
cube-space positions, vertex by vertex. -/
theorem C10_position_not_requested (options : EllipsoidGeometryOptions)
    (hp : (options.vertexFormat.getD VertexFormat.DEFAULT).position = false)
    (hn : (options.vertexFormat.getD VertexFormat.DEFAULT).normal = true)
    (hpos : 0 < options.numberOfPartitions.getD 32) :
    ∃ g, EllipsoidGeometry options = Except.ok g ∧
      g.attributes.position = none ∧
      ∃ a, g.attributes.normal = some a ∧
        a.values = flattenR3
          (((buildCubeTopology (options.numberOfPartitions.getD 32)).1.map
            Cartesian3.toR3).map
            (fun p => (options.ellipsoid.getD Ellipsoid.UNIT_SPHERE).geodeticSurfaceNormal p)) ∧
        ∀ i : ℕ, i < ((buildCubeTopology (options.numberOfPartitions.getD 32)).1).length →
          a.values.getD (3 * i) 0 =
            ((options.ellipsoid.getD Ellipsoid.UNIT_SPHERE).geodeticSurfaceNormal
              (((buildCubeTopology (options.numberOfPartitions.getD 32)).1.getD i
                default).toR3)).x ∧
          a.values.getD (3 * i + 1) 0 =
            ((options.ellipsoid.getD Ellipsoid.UNIT_SPHERE).geodeticSurfaceNormal
              (((buildCubeTopology (options.numberOfPartitions.getD 32)).1.getD i
                default).toR3)).y ∧
          a.values.getD (3 * i + 2) 0 =
            ((options.ellipsoid.getD Ellipsoid.UNIT_SPHERE).geodeticSurfaceNormal
              (((buildCubeTopology (options.numberOfPartitions.getD 32)).1.getD i
                default).toR3)).z := by
  rw [EllipsoidGeometry, if_neg (by omega)]
  simp only [hp, hn, Bool.false_eq_true, if_false, if_true, ite_true, ite_false]
  refine ⟨_, rfl, rfl, _, rfl, rfl, ?_⟩
  intro i hi
  have hlen2 : i < (((buildCubeTopology (options.numberOfPartitions.getD 32)).1.map
      Cartesian3.toR3).map
      (fun p => (options.ellipsoid.getD Ellipsoid.UNIT_SPHERE).geodeticSurfaceNormal p)).length := by
    simpa using hi
  obtain ⟨hx, hy, hz⟩ := flattenR3_getD _ i hlen2
  rw [hx, hy, hz, getD_map_default _ _ _ (by simpa using hi),
    getD_map_default _ _ _ hi]
  exact ⟨rfl, rfl, rfl⟩

/-- Witness for C10: `N = 1`, vertex format requesting only normals, at
vertex 0. -/
theorem C10_position_not_requested_witness :
    ∃ g, EllipsoidGeometry ⟨none, some 1, some ⟨false, true⟩⟩ = Except.ok g ∧
      g.attributes.position = none ∧
      ∃ a, g.attributes.normal = some a ∧
        a.values = flattenR3
          (((buildCubeTopology ((some (1 : ℤ)).getD 32)).1.map Cartesian3.toR3).map
            (fun p => ((none : Option Ellipsoid).getD Ellipsoid.UNIT_SPHERE).geodeticSurfaceNormal p)) ∧
        ∀ i : ℕ, i < ((buildCubeTopology ((some (1 : ℤ)).getD 32)).1).length →
          a.values.getD (3 * i) 0 =
            (((none : Option Ellipsoid).getD Ellipsoid.UNIT_SPHERE).geodeticSurfaceNormal
              (((buildCubeTopology ((some (1 : ℤ)).getD 32)).1.getD i default).toR3)).x ∧
          a.values.getD (3 * i + 1) 0 =
            (((none : Option Ellipsoid).getD Ellipsoid.UNIT_SPHERE).geodeticSurfaceNormal
              (((buildCubeTopology ((some (1 : ℤ)).getD 32)).1.getD i default).toR3)).y ∧
          a.values.getD (3 * i + 2) 0 =
            (((none : Option Ellipsoid).getD Ellipsoid.UNIT_SPHERE).geodeticSurfaceNormal
              (((buildCubeTopology ((some (1 : ℤ)).getD 32)).1.getD i default).toR3)).z :=
  C10_position_not_requested ⟨none, some 1, some ⟨false, true⟩⟩ rfl rfl (by norm_num)

/-- C1 (amended): for every configuration with the normal attribute
requested, each output normal equals the geodetic-surface-normal function
applied to the vertex's position *as stored in the buffer at that point*:
when the position attribute is also requested this is the projected
(normalize-and-scale) position — because the projection loop overwrote the
buffer in place — and only when the position attribute is not requested is it
the original cube-space position. -/
theorem C1_normals_from_current_buffer (options : EllipsoidGeometryOptions)
    (hn : (options.vertexFormat.getD VertexFormat.DEFAULT).normal = true)
    (hpos : 0 < options.numberOfPartitions.getD 32) :
    ∃ g, EllipsoidGeometry options = Except.ok g ∧
      ∃ a, g.attributes.normal = some a ∧
        ∀ i : ℕ, i < ((buildCubeTopology (options.numberOfPartitions.getD 32)).1).length →
          a.values.getD (3 * i) 0 =
            ((options.ellipsoid.getD Ellipsoid.UNIT_SPHERE).geodeticSurfaceNormal
              (if (options.vertexFormat.getD VertexFormat.DEFAULT).position = true then
                ((((buildCubeTopology (options.numberOfPartitions.getD 32)).1.getD i
                  default).toR3).normalize).multiplyComponents
                  (options.ellipsoid.getD Ellipsoid.UNIT_SPHERE).getRadii
              else
                (((buildCubeTopology (options.numberOfPartitions.getD 32)).1.getD i
                  default).toR3))).x ∧
          a.values.getD (3 * i + 1) 0 =
            ((options.ellipsoid.getD Ellipsoid.UNIT_SPHERE).geodeticSurfaceNormal
              (if (options.vertexFormat.getD VertexFormat.DEFAULT).position = true then
                ((((buildCubeTopology (options.numberOfPartitions.getD 32)).1.getD i
                  default).toR3).normalize).multiplyComponents
                  (options.ellipsoid.getD Ellipsoid.UNIT_SPHERE).getRadii
              else
                (((buildCubeTopology (options.numberOfPartitions.getD 32)).1.getD i
                  default).toR3))).y ∧
          a.values.getD (3 * i + 2) 0 =
            ((options.ellipsoid.getD Ellipsoid.UNIT_SPHERE).geodeticSurfaceNormal
              (if (options.vertexFormat.getD VertexFormat.DEFAULT).position = true then
                ((((buildCubeTopology (options.numberOfPartitions.getD 32)).1.getD i
                  default).toR3).normalize).multiplyComponents
                  (options.ellipsoid.getD Ellipsoid.UNIT_SPHERE).getRadii
              else
                (((buildCubeTopology (options.numberOfPartitions.getD 32)).1.getD i
                  default).toR3))).z := by
  rw [EllipsoidGeometry, if_neg (by omega)]
  cases hb : (options.vertexFormat.getD VertexFormat.DEFAULT).position with
  | false =>
    simp only [hb, hn, Bool.false_eq_true, if_false, if_true, ite_true, ite_false]
    refine ⟨_, rfl, _, rfl, ?_⟩
    intro i hi
    obtain ⟨hx, hy, hz⟩ := flattenR3_getD
      (((buildCubeTopology (options.numberOfPartitions.getD 32)).1.map
        Cartesian3.toR3).map
        (fun p => (options.ellipsoid.getD Ellipsoid.UNIT_SPHERE).geodeticSurfaceNormal p))
      i (by simpa using hi)
    rw [hx, hy, hz, getD_map_default _ _ _ (by simpa using hi),
      getD_map_default _ _ _ hi]
    exact ⟨rfl, rfl, rfl⟩
  | true =>
    simp only [hb, hn, if_true, ite_true]
    refine ⟨_, rfl, _, rfl, ?_⟩
    intro i hi
    obtain ⟨hx, hy, hz⟩ := flattenR3_getD
      ((projectPositions (options.ellipsoid.getD Ellipsoid.UNIT_SPHERE).getRadii
        ((buildCubeTopology (options.numberOfPartitions.getD 32)).1.map
          Cartesian3.toR3)).map
        (fun p => (options.ellipsoid.getD Ellipsoid.UNIT_SPHERE).geodeticSurfaceNormal p))
      i (by simp [projectPositions]; simpa using hi)
    rw [hx, hy, hz, getD_map_default _ _ _ (by simp [projectPositions]; simpa using hi),
      projectPositions, getD_map_default _ _ _ (by simpa using hi),
      getD_map_default _ _ _ hi]
    exact ⟨rfl, rfl, rfl⟩

/-- Witness for the amended C1: radii `(1,1,2)`, `N = 1`, both attributes
requested. -/
theorem C1_normals_from_current_buffer_witness :
    ∃ g, EllipsoidGeometry ⟨some ⟨⟨1, 1, 2⟩⟩, some 1, some ⟨true, true⟩⟩ = Except.ok g ∧
      ∃ a, g.attributes.normal = some a ∧
        ∀ i : ℕ, i < ((buildCubeTopology ((some (1 : ℤ)).getD 32)).1).length →
          a.values.getD (3 * i) 0 =
            (((some (Ellipsoid.mk ⟨1, 1, 2⟩)).getD Ellipsoid.UNIT_SPHERE).geodeticSurfaceNormal
              (if ((some (VertexFormat.mk true true)).getD VertexFormat.DEFAULT).position = true then
                ((((buildCubeTopology ((some (1 : ℤ)).getD 32)).1.getD i
                  default).toR3).normalize).multiplyComponents
                  ((some (Ellipsoid.mk ⟨1, 1, 2⟩)).getD Ellipsoid.UNIT_SPHERE).getRadii
              else
                (((buildCubeTopology ((some (1 : ℤ)).getD 32)).1.getD i default).toR3))).x ∧
          a.values.getD (3 * i + 1) 0 =
            (((some (Ellipsoid.mk ⟨1, 1, 2⟩)).getD Ellipsoid.UNIT_SPHERE).geodeticSurfaceNormal
              (if ((some (VertexFormat.mk true true)).getD VertexFormat.DEFAULT).position = true then
                ((((buildCubeTopology ((some (1 : ℤ)).getD 32)).1.getD i
                  default).toR3).normalize).multiplyComponents
                  ((some (Ellipsoid.mk ⟨1, 1, 2⟩)).getD Ellipsoid.UNIT_SPHERE).getRadii
              else
                (((buildCubeTopology ((some (1 : ℤ)).getD 32)).1.getD i default).toR3))).y ∧
          a.values.getD (3 * i + 2) 0 =
            (((some (Ellipsoid.mk ⟨1, 1, 2⟩)).getD Ellipsoid.UNIT_SPHERE).geodeticSurfaceNormal
              (if ((some (VertexFormat.mk true true)).getD VertexFormat.DEFAULT).position = true then
                ((((buildCubeTopology ((some (1 : ℤ)).getD 32)).1.getD i
                  default).toR3).normalize).multiplyComponents
                  ((some (Ellipsoid.mk ⟨1, 1, 2⟩)).getD Ellipsoid.UNIT_SPHERE).getRadii
              else
                (((buildCubeTopology ((some (1 : ℤ)).getD 32)).1.getD i default).toR3))).z :=
  C1_normals_from_current_buffer ⟨some ⟨⟨1, 1, 2⟩⟩, some 1, some ⟨true, true⟩⟩ rfl (by norm_num)

theorem buildCubeTopology_one_fst : (buildCubeTopology 1).1 = cubeCorners := by
  rw [buildCubeTopology_eq 1 (by norm_num)]
  show finalPositions 1 = cubeCorners
  simp [finalPositions, facesStage, faceInteriorPositions, rowsFrom,
    edgesPositions, edgesPositionsStage, edgeBlock]

/-- The ellipsoid of the C1 counterexample: radii `(1, 1, 2)`. -/
def cexEllipsoid : Ellipsoid := ⟨⟨1, 1, 2⟩⟩

/-- The options of the C1 counterexample: radii `(1, 1, 2)`, one partition,
position and normal both requested. -/
def cexOptions : EllipsoidGeometryOptions := ⟨some cexEllipsoid, some 1, some ⟨true, true⟩⟩

/-- The flat values of the normal attribute of a constructor result, when
present. -/
def normalValues (r : Except DeveloperError Geometry) : Option (List ℝ) :=
  match r with
  | Except.ok g => Option.map GeometryAttribute.values g.attributes.normal
  | Except.error _ => none

/-- C1 counterexample: with radii `(1,1,2)`, `N = 1`, and both attributes
requested, the output normal attribute is NOT the geodetic surface normal of
the original pre-projection cube-space positions: the projection loop has
overwritten the buffer in place, and the two vectors differ at the `z`
component of vertex 0 (`-1/√5` versus `-1/√17`). -/
theorem C1_counterexample :
    normalValues (EllipsoidGeometry cexOptions) ≠
      some (flattenR3 (((buildCubeTopology 1).1.map Cartesian3.toR3).map
        (fun p => cexEllipsoid.geodeticSurfaceNormal p))) := by
  rw [EllipsoidGeometry]
  rw [show (cexOptions.numberOfPartitions.getD 32) = 1 from rfl, if_neg (by norm_num)]
  simp only [normalValues, show (cexOptions.vertexFormat.getD VertexFormat.DEFAULT) = ⟨true, true⟩ from rfl,
    show (cexOptions.ellipsoid.getD Ellipsoid.UNIT_SPHERE) = cexEllipsoid from rfl,
    ite_true, Option.map_some]
  intro heq
  have hlists := Option.some.inj heq
  have hgd := congrArg (fun l => l.getD 2 0) hlists
  dsimp only at hgd
  have hL := (flattenR3_getD ((projectPositions cexEllipsoid.getRadii
      ((buildCubeTopology 1).1.map Cartesian3.toR3)).map
      (fun p => cexEllipsoid.geodeticSurfaceNormal p)) 0
      (by simp [projectPositions, buildCubeTopology_one_fst, cubeCorners])).2.2
  have hR := (flattenR3_getD (((buildCubeTopology 1).1.map Cartesian3.toR3).map
      (fun p => cexEllipsoid.geodeticSurfaceNormal p)) 0
      (by simp [buildCubeTopology_one_fst, cubeCorners])).2.2
  rw [show (3 * 0 + 2 : ℕ) = 2 from rfl] at hL hR
  rw [hL, hR] at hgd
  rw [getD_map_default _ _ _ (by simp [projectPositions, buildCubeTopology_one_fst, cubeCorners]),
    projectPositions,
    getD_map_default _ _ _ (by simp [buildCubeTopology_one_fst, cubeCorners]),
    getD_map_default _ _ _ (by simp [buildCubeTopology_one_fst, cubeCorners]),
    getD_map_default _ _ _ (by simp [buildCubeTopology_one_fst, cubeCorners]),
    buildCubeTopology_one_fst,
    show cubeCorners.getD 0 default = ⟨-1, 0, -1⟩ from rfl] at hgd
  simp only [cexEllipsoid, Ellipsoid.geodeticSurfaceNormal, Ellipsoid.getRadii,
    Cartesian3.toR3, R3.normalize, R3.multiplyComponents] at hgd
  norm_num at hgd
  simp only [cubeCorners, List.getElem_cons_zero, Cartesian3.toR3] at hgd
  norm_num at hgd
  have h2sq : (Real.sqrt 2) ^ 2 = 2 := Real.sq_sqrt (by norm_num)
  have a2 : ((-1 / Real.sqrt 2 * 2 / 4 : ℝ)) ^ 2 = 1 / 8 := by
    rw [show (-1 / Real.sqrt 2 * 2 / 4 : ℝ) = -1 / (2 * Real.sqrt 2) from by ring,
      div_pow, neg_one_sq, mul_pow, h2sq]
    norm_num
  have e1 : ((-1 / Real.sqrt 2) ^ 2 + (-1 / Real.sqrt 2 * 2 / 4) ^ 2 : ℝ) = 5 / 8 := by
    have a1 : ((-1 / Real.sqrt 2 : ℝ)) ^ 2 = 1 / 2 := by
      rw [div_pow, neg_one_sq, h2sq]
    rw [a1, a2]
    norm_num
  rw [e1] at hgd
  have h16 : Real.sqrt 16 = 4 := by
    rw [show (16 : ℝ) = 4 ^ 2 from by norm_num, Real.sqrt_sq (by norm_num)]
  rw [h16] at hgd
  have h58sq : (Real.sqrt (5 / 8)) ^ 2 = 5 / 8 := Real.sq_sqrt (by norm_num)
  have h17sq : (Real.sqrt 17) ^ 2 = 17 := Real.sq_sqrt (by norm_num)
  have hLval : ((-1 / Real.sqrt 2 * 2 / 4 / Real.sqrt (5 / 8) : ℝ)) ^ 2 = 1 / 5 := by
    rw [div_pow, a2, h58sq]
    norm_num
  have hRval : ((-(1 / 4) / (Real.sqrt 17 / 4) : ℝ)) ^ 2 = 1 / 17 := by
    rw [div_pow, show ((Real.sqrt 17 / 4 : ℝ)) ^ 2 = 17 / 16 from by
      rw [div_pow, h17sq]; norm_num]
    norm_num
  have hfalse : (1 / 5 : ℝ) = 1 / 17 := by
    rw [← hLval, ← hRval, hgd]
  norm_num at hfalse

/-! ## Vertex uniqueness (C4): parameterisation of the generated positions -/

/-- The provenance of a generated vertex: one of the 8 cube corners, the `k`-th
interior point of edge `m` (parameter `(k+1)/N`), or the interior grid point
`(i+1, j+1)` of face `f`. -/
inductive VKind where
  | corner : ℕ → VKind
  | edgePoint : ℕ → ℕ → VKind
  | facePoint : ℕ → ℕ → ℕ → VKind
deriving DecidableEq, Repr

/-- The cube-space position generated for each vertex provenance. -/
def posFn (n : ℤ) : VKind → Cartesian3
  | .corner c => cubeCorners.getD c default
  | .edgePoint m k =>
      (corner (edgeCornerPairs.getD m (0, 0)).1).add
        (((corner (edgeCornerPairs.getD m (0, 0)).2).subtract
          (corner (edgeCornerPairs.getD m (0, 0)).1)).multiplyByScalar
            (((k : ℚ) + 1) / (n : ℚ)))
  | .facePoint f j i =>
      ((faceBasis f).1.add ((faceBasis f).2.1.multiplyByScalar
        (((i : ℚ) + 1) / (n : ℚ)))).add
        ((faceBasis f).2.2.multiplyByScalar (((j : ℚ) + 1) / (n : ℚ)))

/-- The provenances of the 8 cube corners. -/
def cornerParams : List VKind := (List.range 8).map VKind.corner

/-- The provenances of the interior points of edge `m`, in generation order. -/
def edgeParams (n : ℤ) (m : ℕ) : List VKind :=
  (List.range (n - 1).toNat).map (VKind.edgePoint m)

/-- The provenances of the interior grid points of face `f`, in generation
order (row by row). -/
def faceParams (n : ℤ) (f : ℕ) : List VKind :=
  (List.range (n - 1).toNat).flatMap (fun j =>
    (List.range (n - 1).toNat).map (fun i => VKind.facePoint f j i))

/-- All vertex provenances, in generation order. -/
def paramList (n : ℤ) : List VKind :=
  cornerParams
    ++ edgeParams n 0 ++ edgeParams n 1 ++ edgeParams n 2 ++ edgeParams n 3
    ++ edgeParams n 4 ++ edgeParams n 5 ++ edgeParams n 6 ++ edgeParams n 7
    ++ edgeParams n 8 ++ edgeParams n 9 ++ edgeParams n 10 ++ edgeParams n 11
    ++ faceParams n 0 ++ faceParams n 1 ++ faceParams n 2
    ++ faceParams n 3 ++ faceParams n 4 ++ faceParams n 5

theorem edgesPositions_explicit (n : ℤ) :
    edgesPositions n = cubeCorners
      ++ edgeBlock (corner 0) (corner 1) n ++ edgeBlock (corner 1) (corner 2) n
      ++ edgeBlock (corner 2) (corner 3) n ++ edgeBlock (corner 3) (corner 0) n
      ++ edgeBlock (corner 4) (corner 5) n ++ edgeBlock (corner 5) (corner 6) n
      ++ edgeBlock (corner 6) (corner 7) n ++ edgeBlock (corner 7) (corner 4) n
      ++ edgeBlock (corner 0) (corner 4) n ++ edgeBlock (corner 1) (corner 5) n
      ++ edgeBlock (corner 2) (corner 6) n ++ edgeBlock (corner 3) (corner 7) n := rfl

theorem finalPositions_explicit (n : ℤ) :
    finalPositions n = edgesPositions n
      ++ faceInteriorPositions ⟨-1, 0, -1⟩ ⟨1, -1, 0⟩ ⟨0, 0, 2⟩ n
      ++ faceInteriorPositions ⟨0, -1, -1⟩ ⟨1, 1, 0⟩ ⟨0, 0, 2⟩ n
      ++ faceInteriorPositions ⟨1, 0, -1⟩ ⟨-1, 1, 0⟩ ⟨0, 0, 2⟩ n
      ++ faceInteriorPositions ⟨0, 1, -1⟩ ⟨-1, -1, 0⟩ ⟨0, 0, 2⟩ n
      ++ faceInteriorPositions ⟨-1, 0, 1⟩ ⟨1, -1, 0⟩ ⟨1, 1, 0⟩ n
      ++ faceInteriorPositions ⟨0, -1, -1⟩ ⟨-1, 1, 0⟩ ⟨1, 1, 0⟩ n := rfl

theorem cornerParams_map (n : ℤ) :
    cornerParams.map (posFn n) = cubeCorners := rfl

theorem edgeParams_map (n : ℤ) (m : ℕ) :
    (edgeParams n m).map (posFn n) =
      edgeBlock (corner (edgeCornerPairs.getD m (0, 0)).1)
        (corner (edgeCornerPairs.getD m (0, 0)).2) n := by
  rw [edgeParams, List.map_map, edgeBlock]
  rfl

theorem faceParams_map (n : ℤ) (f : ℕ) :
    (faceParams n f).map (posFn n) =
      faceInteriorPositions (faceBasis f).1 (faceBasis f).2.1 (faceBasis f).2.2 n := by
  rw [faceParams, faceInteriorPositions, rowsFrom_eq_flatMap, List.map_flatMap]
  congr 1
  funext j
  rw [List.map_map, faceRowPositions]
  refine List.map_congr_left ?_
  intro k _
  show ((faceBasis f).1.add ((faceBasis f).2.1.multiplyByScalar _)).add
      ((faceBasis f).2.2.multiplyByScalar _) = _
  congr 2
  push_cast
  ring

theorem paramList_map (n : ℤ) :
    (paramList n).map (posFn n) = finalPositions n := by
  rw [paramList, finalPositions_explicit, edgesPositions_explicit]
  simp only [List.map_append, cornerParams_map, edgeParams_map, faceParams_map]
  rfl

/-- Recover the 0-based subdivision step `k` from the parameter value
`t = (k+1)/N` of an interior point. -/
def kOf (n : ℤ) (t : ℚ) : ℕ := (⌊(n : ℚ) * t⌋ - 1).toNat

theorem kOf_param (n : ℤ) (hn : 1 ≤ n) (k : ℕ) :
    kOf n (((k : ℚ) + 1) / (n : ℚ)) = k := by
  have hne : (n : ℚ) ≠ 0 := by
    have h0 : (0 : ℤ) < n := by omega
    have h0q : (0 : ℚ) < (n : ℚ) := by exact_mod_cast h0
    exact ne_of_gt h0q
  rw [kOf, mul_comm, div_mul_cancel₀ _ hne, Int.floor_add_one, Int.floor_natCast]
  omega

/-- Decide the provenance of a cube-space point from its coordinates: each
corner, each open edge segment and each open face of the diamond prism is cut
out by linear conditions, and the subdivision parameters are recovered with
`kOf`.  On points that the construction never generates the result is
arbitrary. -/
def decode (n : ℤ) (p : Cartesian3) : VKind :=
  if p.z = -1 then
    if p.x = -1 ∧ p.y = 0 then .corner 0
    else if p.x = 0 ∧ p.y = -1 then .corner 1
    else if p.x = 1 ∧ p.y = 0 then .corner 2
    else if p.x = 0 ∧ p.y = 1 then .corner 3
    else if p.x + p.y = -1 then .edgePoint 0 (kOf n (p.x + 1))
    else if p.x - p.y = 1 then .edgePoint 1 (kOf n p.x)
    else if p.x + p.y = 1 then .edgePoint 2 (kOf n p.y)
    else if p.y - p.x = 1 then .edgePoint 3 (kOf n (-p.x))
    else .facePoint 5 (kOf n ((p.y + 1 + p.x) / 2)) (kOf n ((p.y + 1 - p.x) / 2))
  else if p.z = 1 then
    if p.x = -1 ∧ p.y = 0 then .corner 4
    else if p.x = 0 ∧ p.y = -1 then .corner 5
    else if p.x = 1 ∧ p.y = 0 then .corner 6
    else if p.x = 0 ∧ p.y = 1 then .corner 7
    else if p.x + p.y = -1 then .edgePoint 4 (kOf n (p.x + 1))
    else if p.x - p.y = 1 then .edgePoint 5 (kOf n p.x)
    else if p.x + p.y = 1 then .edgePoint 6 (kOf n p.y)
    else if p.y - p.x = 1 then .edgePoint 7 (kOf n (-p.x))
    else .facePoint 4 (kOf n ((p.x + 1 + p.y) / 2)) (kOf n ((p.x + 1 - p.y) / 2))
  else
    if p.x = -1 ∧ p.y = 0 then .edgePoint 8 (kOf n ((p.z + 1) / 2))
    else if p.x = 0 ∧ p.y = -1 then .edgePoint 9 (kOf n ((p.z + 1) / 2))
    else if p.x = 1 ∧ p.y = 0 then .edgePoint 10 (kOf n ((p.z + 1) / 2))
    else if p.x = 0 ∧ p.y = 1 then .edgePoint 11 (kOf n ((p.z + 1) / 2))
    else if p.x + p.y = -1 then .facePoint 0 (kOf n ((p.z + 1) / 2)) (kOf n (p.x + 1))
    else if p.x - p.y = 1 then .facePoint 1 (kOf n ((p.z + 1) / 2)) (kOf n p.x)
    else if p.x + p.y = 1 then .facePoint 2 (kOf n ((p.z + 1) / 2)) (kOf n p.y)
    else if p.y - p.x = 1 then .facePoint 3 (kOf n ((p.z + 1) / 2)) (kOf n (-p.x))
    else .corner 0

theorem decode_posFn_e0 (n : ℤ) (hn : 1 ≤ n) (k : ℕ) (hk : k < (n - 1).toNat) :
    decode n (posFn n (.edgePoint 0 k)) = .edgePoint 0 k := by
  have hn0 : (0 : ℚ) < (n : ℚ) := by
    have h0 : (0 : ℤ) < n := by omega
    exact_mod_cast h0
  set t : ℚ := ((k : ℚ) + 1) / (n : ℚ) with ht
  have ht0 : 0 < t := by rw [ht]; positivity
  have ht1 : t < 1 := by
    rw [ht, div_lt_one hn0]
    exact_mod_cast (by omega : (k : ℤ) + 1 < n)
  have hp : posFn n (.edgePoint 0 k) = ⟨-1 + t, -t, -1⟩ := by
    show (corner 0).add (((corner 1).subtract (corner 0)).multiplyByScalar t) = _
    rw [show corner 0 = ⟨-1, 0, -1⟩ from rfl, show corner 1 = ⟨0, -1, -1⟩ from rfl]
    norm_num [Cartesian3.add, Cartesian3.subtract, Cartesian3.multiplyByScalar,
      Cartesian3.mk.injEq]
  rw [hp, decode]
  dsimp only
  rw [if_pos rfl,
    if_neg (by rintro ⟨h1, -⟩; linarith),
    if_neg (by rintro ⟨h1, -⟩; linarith),
    if_neg (by rintro ⟨h1, -⟩; linarith),
    if_neg (by rintro ⟨-, h2⟩; linarith),
    if_pos (by ring_nf)]
  have harg : -1 + t + 1 = t := by ring
  rw [harg, ht, kOf_param n hn k]

theorem decode_posFn_f0 (n : ℤ) (hn : 1 ≤ n) (j i : ℕ)
    (hj : j < (n - 1).toNat) (hi : i < (n - 1).toNat) :
    decode n (posFn n (.facePoint 0 j i)) = .facePoint 0 j i := by
  have hn0 : (0 : ℚ) < (n : ℚ) := by
    have h0 : (0 : ℤ) < n := by omega
    exact_mod_cast h0
  set a : ℚ := ((i : ℚ) + 1) / (n : ℚ) with ha
  set b : ℚ := ((j : ℚ) + 1) / (n : ℚ) with hb
  have ha0 : 0 < a := by rw [ha]; positivity
  have ha1 : a < 1 := by
    rw [ha, div_lt_one hn0]
    exact_mod_cast (by omega : (i : ℤ) + 1 < n)
  have hb0 : 0 < b := by rw [hb]; positivity
  have hb1 : b < 1 := by
    rw [hb, div_lt_one hn0]
    exact_mod_cast (by omega : (j : ℤ) + 1 < n)
  have hp : posFn n (.facePoint 0 j i) = ⟨-1 + a, -a, -1 + 2 * b⟩ := by
    show ((⟨-1, 0, -1⟩ : Cartesian3).add
        (Cartesian3.multiplyByScalar ⟨1, -1, 0⟩ a)).add
        (Cartesian3.multiplyByScalar ⟨0, 0, 2⟩ b) = _
    norm_num [Cartesian3.add, Cartesian3.multiplyByScalar, Cartesian3.mk.injEq]
  rw [hp, decode]
  dsimp only
  rw [if_neg (by intro h; linarith),
    if_neg (by intro h; linarith),
    if_neg (by rintro ⟨h1, -⟩; linarith),
    if_neg (by rintro ⟨-, h2⟩; linarith),
    if_neg (by rintro ⟨h1, -⟩; linarith),
    if_neg (by rintro ⟨-, h2⟩; linarith),
    if_pos (by ring_nf)]
  have h1 : (-1 + 2 * b + 1) / 2 = b := by ring
  have h2 : -1 + a + 1 = a := by ring
  rw [h1, h2, ha, hb, kOf_param n hn i, kOf_param n hn j]

theorem decode_posFn_corner (n : ℤ) (c : ℕ) (hc : c < 8) :
    decode n (posFn n (.corner c)) = .corner c := by
  interval_cases c <;> rfl

theorem decode_posFn_e1 (n : ℤ) (hn : 1 ≤ n) (k : ℕ) (hk : k < (n - 1).toNat) :
    decode n (posFn n (.edgePoint 1 k)) = .edgePoint 1 k := by
  have hn0 : (0 : ℚ) < (n : ℚ) := by
    have h0 : (0 : ℤ) < n := by omega
    exact_mod_cast h0
  set t : ℚ := ((k : ℚ) + 1) / (n : ℚ) with ht
  have ht0 : 0 < t := by rw [ht]; positivity
  have ht1 : t < 1 := by
    rw [ht, div_lt_one hn0]
    exact_mod_cast (by omega : (k : ℤ) + 1 < n)
  have hp : posFn n (.edgePoint 1 k) = ⟨t, -1 + t, -1⟩ := by
    show (corner 1).add (((corner 2).subtract (corner 1)).multiplyByScalar t) = _
    rw [show corner 1 = ⟨0, -1, -1⟩ from rfl, show corner 2 = ⟨1, 0, -1⟩ from rfl]
    norm_num [Cartesian3.add, Cartesian3.subtract, Cartesian3.multiplyByScalar,
      Cartesian3.mk.injEq]
  rw [hp, decode]
  dsimp only
  rw [if_pos rfl,
    if_neg (by rintro ⟨h1, -⟩; linarith),
    if_neg (by rintro ⟨h1, -⟩; linarith),
    if_neg (by rintro ⟨h1, -⟩; linarith),
    if_neg (by rintro ⟨h1, -⟩; linarith),
    if_neg (by intro h; linarith),
    if_pos (by ring_nf)]
  rw [ht, kOf_param n hn k]

theorem decode_posFn_e2 (n : ℤ) (hn : 1 ≤ n) (k : ℕ) (hk : k < (n - 1).toNat) :
    decode n (posFn n (.edgePoint 2 k)) = .edgePoint 2 k := by
  have hn0 : (0 : ℚ) < (n : ℚ) := by
    have h0 : (0 : ℤ) < n := by omega
    exact_mod_cast h0
  set t : ℚ := ((k : ℚ) + 1) / (n : ℚ) with ht
  have ht0 : 0 < t := by rw [ht]; positivity
  have ht1 : t < 1 := by
    rw [ht, div_lt_one hn0]
    exact_mod_cast (by omega : (k : ℤ) + 1 < n)
  have hp : posFn n (.edgePoint 2 k) = ⟨1 - t, t, -1⟩ := by
    show (corner 2).add (((corner 3).subtract (corner 2)).multiplyByScalar t) = _
    rw [show corner 2 = ⟨1, 0, -1⟩ from rfl, show corner 3 = ⟨0, 1, -1⟩ from rfl]
    norm_num [Cartesian3.add, Cartesian3.subtract, Cartesian3.multiplyByScalar,
      Cartesian3.mk.injEq]
    all_goals ring
  rw [hp, decode]
  dsimp only
  rw [if_pos rfl,
    if_neg (by rintro ⟨h1, -⟩; linarith),
    if_neg (by rintro ⟨-, h2⟩; linarith),
    if_neg (by rintro ⟨-, h2⟩; linarith),
    if_neg (by rintro ⟨-, h2⟩; linarith),
    if_neg (by intro h; linarith),
    if_neg (by intro h; linarith),
    if_pos (by ring_nf)]
  rw [ht, kOf_param n hn k]

theorem decode_posFn_e3 (n : ℤ) (hn : 1 ≤ n) (k : ℕ) (hk : k < (n - 1).toNat) :
    decode n (posFn n (.edgePoint 3 k)) = .edgePoint 3 k := by
  have hn0 : (0 : ℚ) < (n : ℚ) := by
    have h0 : (0 : ℤ) < n := by omega
    exact_mod_cast h0
  set t : ℚ := ((k : ℚ) + 1) / (n : ℚ) with ht
  have ht0 : 0 < t := by rw [ht]; positivity
  have ht1 : t < 1 := by
    rw [ht, div_lt_one hn0]
    exact_mod_cast (by omega : (k : ℤ) + 1 < n)
  have hp : posFn n (.edgePoint 3 k) = ⟨-t, 1 - t, -1⟩ := by
    show (corner 3).add (((corner 0).subtract (corner 3)).multiplyByScalar t) = _
    rw [show corner 3 = ⟨0, 1, -1⟩ from rfl, show corner 0 = ⟨-1, 0, -1⟩ from rfl]
    norm_num [Cartesian3.add, Cartesian3.subtract, Cartesian3.multiplyByScalar,
      Cartesian3.mk.injEq]
    all_goals ring
  rw [hp, decode]
  dsimp only
  rw [if_pos rfl,
    if_neg (by rintro ⟨h1, -⟩; linarith),
    if_neg (by rintro ⟨-, h2⟩; linarith),
    if_neg (by rintro ⟨h1, -⟩; linarith),
    if_neg (by rintro ⟨-, h2⟩; linarith),
    if_neg (by intro h; linarith),
    if_neg (by intro h; linarith),
    if_neg (by intro h; linarith),
    if_pos (by ring_nf)]
  have harg : -(-t) = t := by ring
  rw [harg, ht, kOf_param n hn k]

theorem decode_posFn_e4 (n : ℤ) (hn : 1 ≤ n) (k : ℕ) (hk : k < (n - 1).toNat) :
    decode n (posFn n (.edgePoint 4 k)) = .edgePoint 4 k := by
  have hn0 : (0 : ℚ) < (n : ℚ) := by
    have h0 : (0 : ℤ) < n := by omega
    exact_mod_cast h0
  set t : ℚ := ((k : ℚ) + 1) / (n : ℚ) with ht
  have ht0 : 0 < t := by rw [ht]; positivity
  have ht1 : t < 1 := by
    rw [ht, div_lt_one hn0]
    exact_mod_cast (by omega : (k : ℤ) + 1 < n)
  have hp : posFn n (.edgePoint 4 k) = ⟨-1 + t, -t, 1⟩ := by
    show (corner 4).add (((corner 5).subtract (corner 4)).multiplyByScalar t) = _
    rw [show corner 4 = ⟨-1, 0, 1⟩ from rfl, show corner 5 = ⟨0, -1, 1⟩ from rfl]
    norm_num [Cartesian3.add, Cartesian3.subtract, Cartesian3.multiplyByScalar,
      Cartesian3.mk.injEq]
  rw [hp, decode]
  dsimp only
  rw [if_neg (by norm_num), if_pos rfl,
    if_neg (by rintro ⟨h1, -⟩; linarith),
    if_neg (by rintro ⟨h1, -⟩; linarith),
    if_neg (by rintro ⟨h1, -⟩; linarith),
    if_neg (by rintro ⟨-, h2⟩; linarith),
    if_pos (by ring_nf)]
  have harg : -1 + t + 1 = t := by ring
  rw [harg, ht, kOf_param n hn k]

theorem decode_posFn_e5 (n : ℤ) (hn : 1 ≤ n) (k : ℕ) (hk : k < (n - 1).toNat) :
    decode n (posFn n (.edgePoint 5 k)) = .edgePoint 5 k := by
  have hn0 : (0 : ℚ) < (n : ℚ) := by
    have h0 : (0 : ℤ) < n := by omega
    exact_mod_cast h0
  set t : ℚ := ((k : ℚ) + 1) / (n : ℚ) with ht
  have ht0 : 0 < t := by rw [ht]; positivity
  have ht1 : t < 1 := by
    rw [ht, div_lt_one hn0]
    exact_mod_cast (by omega : (k : ℤ) + 1 < n)
  have hp : posFn n (.edgePoint 5 k) = ⟨t, -1 + t, 1⟩ := by
    show (corner 5).add (((corner 6).subtract (corner 5)).multiplyByScalar t) = _
    rw [show corner 5 = ⟨0, -1, 1⟩ from rfl, show corner 6 = ⟨1, 0, 1⟩ from rfl]
    norm_num [Cartesian3.add, Cartesian3.subtract, Cartesian3.multiplyByScalar,
      Cartesian3.mk.injEq]
  rw [hp, decode]
  dsimp only
  rw [if_neg (by norm_num), if_pos rfl,
    if_neg (by rintro ⟨h1, -⟩; linarith),
    if_neg (by rintro ⟨h1, -⟩; linarith),
    if_neg (by rintro ⟨h1, -⟩; linarith),
    if_neg (by rintro ⟨h1, -⟩; linarith),
    if_neg (by intro h; linarith),
    if_pos (by ring_nf)]
  rw [ht, kOf_param n hn k]

theorem decode_posFn_e6 (n : ℤ) (hn : 1 ≤ n) (k : ℕ) (hk : k < (n - 1).toNat) :
    decode n (posFn n (.edgePoint 6 k)) = .edgePoint 6 k := by
  have hn0 : (0 : ℚ) < (n : ℚ) := by
    have h0 : (0 : ℤ) < n := by omega
    exact_mod_cast h0
  set t : ℚ := ((k : ℚ) + 1) / (n : ℚ) with ht
  have ht0 : 0 < t := by rw [ht]; positivity
  have ht1 : t < 1 := by
    rw [ht, div_lt_one hn0]
    exact_mod_cast (by omega : (k : ℤ) + 1 < n)
  have hp : posFn n (.edgePoint 6 k) = ⟨1 - t, t, 1⟩ := by
    show (corner 6).add (((corner 7).subtract (corner 6)).multiplyByScalar t) = _
    rw [show corner 6 = ⟨1, 0, 1⟩ from rfl, show corner 7 = ⟨0, 1, 1⟩ from rfl]
    norm_num [Cartesian3.add, Cartesian3.subtract, Cartesian3.multiplyByScalar,
      Cartesian3.mk.injEq]
    all_goals ring
  rw [hp, decode]
  dsimp only
  rw [if_neg (by norm_num), if_pos rfl,
    if_neg (by rintro ⟨h1, -⟩; linarith),
    if_neg (by rintro ⟨-, h2⟩; linarith),
    if_neg (by rintro ⟨-, h2⟩; linarith),
    if_neg (by rintro ⟨-, h2⟩; linarith),
    if_neg (by intro h; linarith),
    if_neg (by intro h; linarith),
    if_pos (by ring_nf)]
  rw [ht, kOf_param n hn k]

theorem decode_posFn_e7 (n : ℤ) (hn : 1 ≤ n) (k : ℕ) (hk : k < (n - 1).toNat) :
    decode n (posFn n (.edgePoint 7 k)) = .edgePoint 7 k := by
  have hn0 : (0 : ℚ) < (n : ℚ) := by
    have h0 : (0 : ℤ) < n := by omega
    exact_mod_cast h0
  set t : ℚ := ((k : ℚ) + 1) / (n : ℚ) with ht
  have ht0 : 0 < t := by rw [ht]; positivity
  have ht1 : t < 1 := by
    rw [ht, div_lt_one hn0]
    exact_mod_cast (by omega : (k : ℤ) + 1 < n)
  have hp : posFn n (.edgePoint 7 k) = ⟨-t, 1 - t, 1⟩ := by
    show (corner 7).add (((corner 4).subtract (corner 7)).multiplyByScalar t) = _
    rw [show corner 7 = ⟨0, 1, 1⟩ from rfl, show corner 4 = ⟨-1, 0, 1⟩ from rfl]
    norm_num [Cartesian3.add, Cartesian3.subtract, Cartesian3.multiplyByScalar,
      Cartesian3.mk.injEq]
    all_goals ring
  rw [hp, decode]
  dsimp only
  rw [if_neg (by norm_num), if_pos rfl,
    if_neg (by rintro ⟨h1, -⟩; linarith),
    if_neg (by rintro ⟨h1, -⟩; linarith),
    if_neg (by rintro ⟨h1, -⟩; linarith),
    if_neg (by rintro ⟨-, h2⟩; linarith),
    if_neg (by intro h; linarith),
    if_neg (by intro h; linarith),
    if_neg (by intro h; linarith),
    if_pos (by ring_nf)]
  have harg : -(-t) = t := by ring
  rw [harg, ht, kOf_param n hn k]

theorem decode_posFn_e8 (n : ℤ) (hn : 1 ≤ n) (k : ℕ) (hk : k < (n - 1).toNat) :
    decode n (posFn n (.edgePoint 8 k)) = .edgePoint 8 k := by
  have hn0 : (0 : ℚ) < (n : ℚ) := by
    have h0 : (0 : ℤ) < n := by omega
    exact_mod_cast h0
  set t : ℚ := ((k : ℚ) + 1) / (n : ℚ) with ht
  have ht0 : 0 < t := by rw [ht]; positivity
  have ht1 : t < 1 := by
    rw [ht, div_lt_one hn0]
    exact_mod_cast (by omega : (k : ℤ) + 1 < n)
  have hp : posFn n (.edgePoint 8 k) = ⟨-1, 0, -1 + 2 * t⟩ := by
    show (corner 0).add (((corner 4).subtract (corner 0)).multiplyByScalar t) = _
    rw [show corner 0 = ⟨-1, 0, -1⟩ from rfl, show corner 4 = ⟨-1, 0, 1⟩ from rfl]
    norm_num [Cartesian3.add, Cartesian3.subtract, Cartesian3.multiplyByScalar,
      Cartesian3.mk.injEq]
  rw [hp, decode]
  dsimp only
  rw [if_neg (by intro h; linarith),
    if_neg (by intro h; linarith),
    if_pos ⟨rfl, rfl⟩]
  have harg : (-1 + 2 * t + 1) / 2 = t := by ring
  rw [harg, ht, kOf_param n hn k]

theorem decode_posFn_e9 (n : ℤ) (hn : 1 ≤ n) (k : ℕ) (hk : k < (n - 1).toNat) :
    decode n (posFn n (.edgePoint 9 k)) = .edgePoint 9 k := by
  have hn0 : (0 : ℚ) < (n : ℚ) := by
    have h0 : (0 : ℤ) < n := by omega
    exact_mod_cast h0
  set t : ℚ := ((k : ℚ) + 1) / (n : ℚ) with ht
  have ht0 : 0 < t := by rw [ht]; positivity
  have ht1 : t < 1 := by
    rw [ht, div_lt_one hn0]
    exact_mod_cast (by omega : (k : ℤ) + 1 < n)
  have hp : posFn n (.edgePoint 9 k) = ⟨0, -1, -1 + 2 * t⟩ := by
    show (corner 1).add (((corner 5).subtract (corner 1)).multiplyByScalar t) = _
    rw [show corner 1 = ⟨0, -1, -1⟩ from rfl, show corner 5 = ⟨0, -1, 1⟩ from rfl]
    norm_num [Cartesian3.add, Cartesian3.subtract, Cartesian3.multiplyByScalar,
      Cartesian3.mk.injEq]
  rw [hp, decode]
  dsimp only
  rw [if_neg (by intro h; linarith),
    if_neg (by intro h; linarith),
    if_neg (by rintro ⟨h1, -⟩; norm_num at h1),
    if_pos ⟨rfl, rfl⟩]
  have harg : (-1 + 2 * t + 1) / 2 = t := by ring
  rw [harg, ht, kOf_param n hn k]

theorem decode_posFn_e10 (n : ℤ) (hn : 1 ≤ n) (k : ℕ) (hk : k < (n - 1).toNat) :
    decode n (posFn n (.edgePoint 10 k)) = .edgePoint 10 k := by
  have hn0 : (0 : ℚ) < (n : ℚ) := by
    have h0 : (0 : ℤ) < n := by omega
    exact_mod_cast h0
  set t : ℚ := ((k : ℚ) + 1) / (n : ℚ) with ht
  have ht0 : 0 < t := by rw [ht]; positivity
  have ht1 : t < 1 := by
    rw [ht, div_lt_one hn0]
    exact_mod_cast (by omega : (k : ℤ) + 1 < n)
  have hp : posFn n (.edgePoint 10 k) = ⟨1, 0, -1 + 2 * t⟩ := by
    show (corner 2).add (((corner 6).subtract (corner 2)).multiplyByScalar t) = _
    rw [show corner 2 = ⟨1, 0, -1⟩ from rfl, show corner 6 = ⟨1, 0, 1⟩ from rfl]
    norm_num [Cartesian3.add, Cartesian3.subtract, Cartesian3.multiplyByScalar,
      Cartesian3.mk.injEq]
  rw [hp, decode]
  dsimp only
  rw [if_neg (by intro h; linarith),
    if_neg (by intro h; linarith),
    if_neg (by rintro ⟨h1, -⟩; norm_num at h1),
    if_neg (by rintro ⟨h1, -⟩; norm_num at h1),
    if_pos ⟨rfl, rfl⟩]
  have harg : (-1 + 2 * t + 1) / 2 = t := by ring
  rw [harg, ht, kOf_param n hn k]

theorem decode_posFn_e11 (n : ℤ) (hn : 1 ≤ n) (k : ℕ) (hk : k < (n - 1).toNat) :
    decode n (posFn n (.edgePoint 11 k)) = .edgePoint 11 k := by
  have hn0 : (0 : ℚ) < (n : ℚ) := by
    have h0 : (0 : ℤ) < n := by omega
    exact_mod_cast h0
  set t : ℚ := ((k : ℚ) + 1) / (n : ℚ) with ht
  have ht0 : 0 < t := by rw [ht]; positivity
  have ht1 : t < 1 := by
    rw [ht, div_lt_one hn0]
    exact_mod_cast (by omega : (k : ℤ) + 1 < n)
  have hp : posFn n (.edgePoint 11 k) = ⟨0, 1, -1 + 2 * t⟩ := by
    show (corner 3).add (((corner 7).subtract (corner 3)).multiplyByScalar t) = _
    rw [show corner 3 = ⟨0, 1, -1⟩ from rfl, show corner 7 = ⟨0, 1, 1⟩ from rfl]
    norm_num [Cartesian3.add, Cartesian3.subtract, Cartesian3.multiplyByScalar,
      Cartesian3.mk.injEq]
  rw [hp, decode]
  dsimp only
  rw [if_neg (by intro h; linarith),
    if_neg (by intro h; linarith),
    if_neg (by rintro ⟨h1, -⟩; norm_num at h1),
    if_neg (by rintro ⟨-, h2⟩; norm_num at h2),
    if_neg (by rintro ⟨h1, -⟩; norm_num at h1),
    if_pos ⟨rfl, rfl⟩]
  have harg : (-1 + 2 * t + 1) / 2 = t := by ring
  rw [harg, ht, kOf_param n hn k]

theorem decode_posFn_f1 (n : ℤ) (hn : 1 ≤ n) (j i : ℕ)
    (hj : j < (n - 1).toNat) (hi : i < (n - 1).toNat) :
    decode n (posFn n (.facePoint 1 j i)) = .facePoint 1 j i := by
  have hn0 : (0 : ℚ) < (n : ℚ) := by
    have h0 : (0 : ℤ) < n := by omega
    exact_mod_cast h0
  set a : ℚ := ((i : ℚ) + 1) / (n : ℚ) with ha
  set b : ℚ := ((j : ℚ) + 1) / (n : ℚ) with hb
  have ha0 : 0 < a := by rw [ha]; positivity
  have ha1 : a < 1 := by
    rw [ha, div_lt_one hn0]
    exact_mod_cast (by omega : (i : ℤ) + 1 < n)
  have hb0 : 0 < b := by rw [hb]; positivity
  have hb1 : b < 1 := by
    rw [hb, div_lt_one hn0]
    exact_mod_cast (by omega : (j : ℤ) + 1 < n)
  have hp : posFn n (.facePoint 1 j i) = ⟨a, -1 + a, -1 + 2 * b⟩ := by
    show ((⟨0, -1, -1⟩ : Cartesian3).add
        (Cartesian3.multiplyByScalar ⟨1, 1, 0⟩ a)).add
        (Cartesian3.multiplyByScalar ⟨0, 0, 2⟩ b) = _
    norm_num [Cartesian3.add, Cartesian3.multiplyByScalar, Cartesian3.mk.injEq]
  rw [hp, decode]
  dsimp only
  rw [if_neg (by intro h; linarith),
    if_neg (by intro h; linarith),
    if_neg (by rintro ⟨h1, -⟩; linarith),
    if_neg (by rintro ⟨h1, -⟩; linarith),
    if_neg (by rintro ⟨h1, -⟩; linarith),
    if_neg (by rintro ⟨h1, -⟩; linarith),
    if_neg (by intro h; linarith),
    if_pos (by ring_nf)]
  have h1 : (-1 + 2 * b + 1) / 2 = b := by ring
  rw [h1, ha, hb, kOf_param n hn i, kOf_param n hn j]

theorem decode_posFn_f2 (n : ℤ) (hn : 1 ≤ n) (j i : ℕ)
    (hj : j < (n - 1).toNat) (hi : i < (n - 1).toNat) :
    decode n (posFn n (.facePoint 2 j i)) = .facePoint 2 j i := by
  have hn0 : (0 : ℚ) < (n : ℚ) := by
    have h0 : (0 : ℤ) < n := by omega
    exact_mod_cast h0
  set a : ℚ := ((i : ℚ) + 1) / (n : ℚ) with ha
  set b : ℚ := ((j : ℚ) + 1) / (n : ℚ) with hb
  have ha0 : 0 < a := by rw [ha]; positivity
  have ha1 : a < 1 := by
    rw [ha, div_lt_one hn0]
    exact_mod_cast (by omega : (i : ℤ) + 1 < n)
  have hb0 : 0 < b := by rw [hb]; positivity
  have hb1 : b < 1 := by
    rw [hb, div_lt_one hn0]
    exact_mod_cast (by omega : (j : ℤ) + 1 < n)
  have hp : posFn n (.facePoint 2 j i) = ⟨1 - a, a, -1 + 2 * b⟩ := by
    show ((⟨1, 0, -1⟩ : Cartesian3).add
        (Cartesian3.multiplyByScalar ⟨-1, 1, 0⟩ a)).add
        (Cartesian3.multiplyByScalar ⟨0, 0, 2⟩ b) = _
    norm_num [Cartesian3.add, Cartesian3.multiplyByScalar, Cartesian3.mk.injEq]
    all_goals ring
  rw [hp, decode]
  dsimp only
  rw [if_neg (by intro h; linarith),
    if_neg (by intro h; linarith),
    if_neg (by rintro ⟨h1, -⟩; linarith),
    if_neg (by rintro ⟨-, h2⟩; linarith),
    if_neg (by rintro ⟨-, h2⟩; linarith),
    if_neg (by rintro ⟨-, h2⟩; linarith),
    if_neg (by intro h; linarith),
    if_neg (by intro h; linarith),
    if_pos (by ring_nf)]
  have h1 : (-1 + 2 * b + 1) / 2 = b := by ring
  rw [h1, ha, hb, kOf_param n hn i, kOf_param n hn j]

theorem decode_posFn_f3 (n : ℤ) (hn : 1 ≤ n) (j i : ℕ)
    (hj : j < (n - 1).toNat) (hi : i < (n - 1).toNat) :
    decode n (posFn n (.facePoint 3 j i)) = .facePoint 3 j i := by
  have hn0 : (0 : ℚ) < (n : ℚ) := by
    have h0 : (0 : ℤ) < n := by omega
    exact_mod_cast h0
  set a : ℚ := ((i : ℚ) + 1) / (n : ℚ) with ha
  set b : ℚ := ((j : ℚ) + 1) / (n : ℚ) with hb
  have ha0 : 0 < a := by rw [ha]; positivity
  have ha1 : a < 1 := by
    rw [ha, div_lt_one hn0]
    exact_mod_cast (by omega : (i : ℤ) + 1 < n)
  have hb0 : 0 < b := by rw [hb]; positivity
  have hb1 : b < 1 := by
    rw [hb, div_lt_one hn0]
    exact_mod_cast (by omega : (j : ℤ) + 1 < n)
  have hp : posFn n (.facePoint 3 j i) = ⟨-a, 1 - a, -1 + 2 * b⟩ := by
    show ((⟨0, 1, -1⟩ : Cartesian3).add
        (Cartesian3.multiplyByScalar ⟨-1, -1, 0⟩ a)).add
        (Cartesian3.multiplyByScalar ⟨0, 0, 2⟩ b) = _
    norm_num [Cartesian3.add, Cartesian3.multiplyByScalar, Cartesian3.mk.injEq]
    all_goals ring
  rw [hp, decode]
  dsimp only
  rw [if_neg (by intro h; linarith),
    if_neg (by intro h; linarith),
    if_neg (by rintro ⟨h1, -⟩; linarith),
    if_neg (by rintro ⟨h1, -⟩; linarith),
    if_neg (by rintro ⟨h1, -⟩; linarith),
    if_neg (by rintro ⟨-, h2⟩; linarith),
    if_neg (by intro h; linarith),
    if_neg (by intro h; linarith),
    if_neg (by intro h; linarith),
    if_pos (by ring_nf)]
  have h1 : (-1 + 2 * b + 1) / 2 = b := by ring
  have h2 : -(-a) = a := by ring
  rw [h1, h2, ha, hb, kOf_param n hn i, kOf_param n hn j]

theorem decode_posFn_f4 (n : ℤ) (hn : 1 ≤ n) (j i : ℕ)
    (hj : j < (n - 1).toNat) (hi : i < (n - 1).toNat) :
    decode n (posFn n (.facePoint 4 j i)) = .facePoint 4 j i := by
  have hn0 : (0 : ℚ) < (n : ℚ) := by
    have h0 : (0 : ℤ) < n := by omega
    exact_mod_cast h0
  set a : ℚ := ((i : ℚ) + 1) / (n : ℚ) with ha
  set b : ℚ := ((j : ℚ) + 1) / (n : ℚ) with hb
  have ha0 : 0 < a := by rw [ha]; positivity
  have ha1 : a < 1 := by
    rw [ha, div_lt_one hn0]
    exact_mod_cast (by omega : (i : ℤ) + 1 < n)
  have hb0 : 0 < b := by rw [hb]; positivity
  have hb1 : b < 1 := by
    rw [hb, div_lt_one hn0]
    exact_mod_cast (by omega : (j : ℤ) + 1 < n)
  have hp : posFn n (.facePoint 4 j i) = ⟨-1 + a + b, b - a, 1⟩ := by
    show ((⟨-1, 0, 1⟩ : Cartesian3).add
        (Cartesian3.multiplyByScalar ⟨1, -1, 0⟩ a)).add
        (Cartesian3.multiplyByScalar ⟨1, 1, 0⟩ b) = _
    norm_num [Cartesian3.add, Cartesian3.multiplyByScalar, Cartesian3.mk.injEq]
    all_goals ring
  rw [hp, decode]
  dsimp only
  rw [if_neg (by norm_num), if_pos rfl,
    if_neg (by rintro ⟨h1, -⟩; linarith),
    if_neg (by rintro ⟨-, h2⟩; linarith),
    if_neg (by rintro ⟨h1, -⟩; linarith),
    if_neg (by rintro ⟨-, h2⟩; linarith),
    if_neg (by intro h; linarith),
    if_neg (by intro h; linarith),
    if_neg (by intro h; linarith),
    if_neg (by intro h; linarith)]
  have h1 : (-1 + a + b + 1 + (b - a)) / 2 = b := by ring
  have h2 : (-1 + a + b + 1 - (b - a)) / 2 = a := by ring
  rw [h1, h2, ha, hb, kOf_param n hn i, kOf_param n hn j]

theorem decode_posFn_f5 (n : ℤ) (hn : 1 ≤ n) (j i : ℕ)
    (hj : j < (n - 1).toNat) (hi : i < (n - 1).toNat) :
    decode n (posFn n (.facePoint 5 j i)) = .facePoint 5 j i := by
  have hn0 : (0 : ℚ) < (n : ℚ) := by
    have h0 : (0 : ℤ) < n := by omega
    exact_mod_cast h0
  set a : ℚ := ((i : ℚ) + 1) / (n : ℚ) with ha
  set b : ℚ := ((j : ℚ) + 1) / (n : ℚ) with hb
  have ha0 : 0 < a := by rw [ha]; positivity
  have ha1 : a < 1 := by
    rw [ha, div_lt_one hn0]
    exact_mod_cast (by omega : (i : ℤ) + 1 < n)
  have hb0 : 0 < b := by rw [hb]; positivity
  have hb1 : b < 1 := by
    rw [hb, div_lt_one hn0]
    exact_mod_cast (by omega : (j : ℤ) + 1 < n)
  have hp : posFn n (.facePoint 5 j i) = ⟨b - a, -1 + a + b, -1⟩ := by
    show ((⟨0, -1, -1⟩ : Cartesian3).add
        (Cartesian3.multiplyByScalar ⟨-1, 1, 0⟩ a)).add
        (Cartesian3.multiplyByScalar ⟨1, 1, 0⟩ b) = _
    norm_num [Cartesian3.add, Cartesian3.multiplyByScalar, Cartesian3.mk.injEq]
    all_goals ring
  rw [hp, decode]
  dsimp only
  rw [if_pos rfl,
    if_neg (by rintro ⟨h1, -⟩; linarith),
    if_neg (by rintro ⟨-, h2⟩; linarith),
    if_neg (by rintro ⟨h1, -⟩; linarith),
    if_neg (by rintro ⟨-, h2⟩; linarith),
    if_neg (by intro h; linarith),
    if_neg (by intro h; linarith),
    if_neg (by intro h; linarith),
    if_neg (by intro h; linarith)]
  have h1 : (-1 + a + b + 1 + (b - a)) / 2 = b := by ring
  have h2 : (-1 + a + b + 1 - (b - a)) / 2 = a := by ring
  rw [h1, h2, ha, hb, kOf_param n hn i, kOf_param n hn j]

/-- The bounds satisfied by every provenance in `paramList`. -/
def vOK (n : ℤ) : VKind → Prop
  | .corner c => c < 8
  | .edgePoint m k => m < 12 ∧ k < (n - 1).toNat
  | .facePoint f j i => f < 6 ∧ j < (n - 1).toNat ∧ i < (n - 1).toNat

theorem mem_paramList_vOK (n : ℤ) (v : VKind) (hv : v ∈ paramList n) : vOK n v := by
  simp only [paramList, cornerParams, edgeParams, faceParams, List.mem_append,
    List.mem_map, List.mem_flatMap, List.mem_range] at hv
  rcases hv with ((((((((((((((((((h) | h) | h) | h) | h) | h) | h) | h) | h) | h) | h) | h) | h) | h) | h) | h) | h) | h) | h
  all_goals first
    | (obtain ⟨c, hc, rfl⟩ := h
       simp only [vOK]
       omega)
    | (obtain ⟨j, hj, i, hi, rfl⟩ := h
       simp only [vOK]
       omega)

theorem decode_posFn (n : ℤ) (hn : 1 ≤ n) (v : VKind) (hv : vOK n v) :
    decode n (posFn n v) = v := by
  match v with
  | .corner c => exact decode_posFn_corner n c hv
  | .edgePoint m k =>
    obtain ⟨hm, hk⟩ := hv
    interval_cases m
    · exact decode_posFn_e0 n hn k hk
    · exact decode_posFn_e1 n hn k hk
    · exact decode_posFn_e2 n hn k hk
    · exact decode_posFn_e3 n hn k hk
    · exact decode_posFn_e4 n hn k hk
    · exact decode_posFn_e5 n hn k hk
    · exact decode_posFn_e6 n hn k hk
    · exact decode_posFn_e7 n hn k hk
    · exact decode_posFn_e8 n hn k hk
    · exact decode_posFn_e9 n hn k hk
    · exact decode_posFn_e10 n hn k hk
    · exact decode_posFn_e11 n hn k hk
  | .facePoint f j i =>
    obtain ⟨hf, hj, hi⟩ := hv
    interval_cases f
    · exact decode_posFn_f0 n hn j i hj hi
    · exact decode_posFn_f1 n hn j i hj hi
    · exact decode_posFn_f2 n hn j i hj hi
    · exact decode_posFn_f3 n hn j i hj hi
    · exact decode_posFn_f4 n hn j i hj hi
    · exact decode_posFn_f5 n hn j i hj hi

/-- A key that orders the nineteen provenance blocks of `paramList`. -/
def vkey : VKind → ℕ
  | .corner _ => 0
  | .edgePoint m _ => 1 + m
  | .facePoint f _ _ => 13 + f

theorem nodup_append_key (k : ℕ) {l₁ l₂ : List VKind}
    (n₁ : l₁.Nodup) (n₂ : l₂.Nodup)
    (h₁ : ∀ a ∈ l₁, vkey a < k) (h₂ : ∀ a ∈ l₂, vkey a = k) :
    (l₁ ++ l₂).Nodup ∧ ∀ a ∈ l₁ ++ l₂, vkey a < k + 1 := by
  constructor
  · refine n₁.append n₂ ?_
    intro a ha1 ha2
    have hlt := h₁ a ha1
    have heq := h₂ a ha2
    omega
  · intro a ha
    rcases List.mem_append.mp ha with h | h
    · have := h₁ a h; omega
    · have := h₂ a h; omega

theorem cornerParams_nodup : cornerParams.Nodup :=
  (List.nodup_range 8).map (fun a b h => by injection h)

theorem edgeParams_nodup (n : ℤ) (m : ℕ) : (edgeParams n m).Nodup :=
  (List.nodup_range _).map (fun a b h => by injection h)

theorem faceParams_nodup (n : ℤ) (f : ℕ) : (faceParams n f).Nodup := by
  rw [faceParams, List.nodup_flatMap]
  constructor
  · intro j hj
    exact (List.nodup_range _).map
      (fun a b h => by injection h)
  · refine (List.pairwise_lt_range _).imp ?_
    intro j j' hlt
    intro x hx hx'
    simp only [List.mem_map, List.mem_range] at hx hx'
    obtain ⟨i, hi, rfl⟩ := hx
    obtain ⟨i', hi', he⟩ := hx'
    injection he with h1 h2 h3
    omega

theorem vkey_cornerParams (a : VKind) (ha : a ∈ cornerParams) : vkey a = 0 := by
  simp only [cornerParams, List.mem_map, List.mem_range] at ha
  obtain ⟨c, -, rfl⟩ := ha
  rfl

theorem vkey_edgeParams (n : ℤ) (m : ℕ) (a : VKind) (ha : a ∈ edgeParams n m) :
    vkey a = 1 + m := by
  simp only [edgeParams, List.mem_map, List.mem_range] at ha
  obtain ⟨k, -, rfl⟩ := ha
  rfl

theorem vkey_faceParams (n : ℤ) (f : ℕ) (a : VKind) (ha : a ∈ faceParams n f) :
    vkey a = 13 + f := by
  simp only [faceParams, List.mem_flatMap, List.mem_map, List.mem_range] at ha
  obtain ⟨j, -, i, -, rfl⟩ := ha
  rfl

theorem paramList_nodup (n : ℤ) : (paramList n).Nodup := by
  have s1 := nodup_append_key 1 cornerParams_nodup (edgeParams_nodup n 0)
    (fun a ha => by have := vkey_cornerParams a ha; omega)
    (fun a ha => by have := vkey_edgeParams n 0 a ha; omega)
  have s2 := nodup_append_key 2 s1.1 (edgeParams_nodup n 1)
    (fun a ha => by have := s1.2 a ha; omega)
    (fun a ha => by have := vkey_edgeParams n 1 a ha; omega)
  have s3 := nodup_append_key 3 s2.1 (edgeParams_nodup n 2)
    (fun a ha => by have := s2.2 a ha; omega)
    (fun a ha => by have := vkey_edgeParams n 2 a ha; omega)
  have s4 := nodup_append_key 4 s3.1 (edgeParams_nodup n 3)
    (fun a ha => by have := s3.2 a ha; omega)
    (fun a ha => by have := vkey_edgeParams n 3 a ha; omega)
  have s5 := nodup_append_key 5 s4.1 (edgeParams_nodup n 4)
    (fun a ha => by have := s4.2 a ha; omega)
    (fun a ha => by have := vkey_edgeParams n 4 a ha; omega)
  have s6 := nodup_append_key 6 s5.1 (edgeParams_nodup n 5)
    (fun a ha => by have := s5.2 a ha; omega)
    (fun a ha => by have := vkey_edgeParams n 5 a ha; omega)
  have s7 := nodup_append_key 7 s6.1 (edgeParams_nodup n 6)
    (fun a ha => by have := s6.2 a ha; omega)
    (fun a ha => by have := vkey_edgeParams n 6 a ha; omega)
  have s8 := nodup_append_key 8 s7.1 (edgeParams_nodup n 7)
    (fun a ha => by have := s7.2 a ha; omega)
    (fun a ha => by have := vkey_edgeParams n 7 a ha; omega)
  have s9 := nodup_append_key 9 s8.1 (edgeParams_nodup n 8)
    (fun a ha => by have := s8.2 a ha; omega)
    (fun a ha => by have := vkey_edgeParams n 8 a ha; omega)
  have s10 := nodup_append_key 10 s9.1 (edgeParams_nodup n 9)
    (fun a ha => by have := s9.2 a ha; omega)
    (fun a ha => by have := vkey_edgeParams n 9 a ha; omega)
  have s11 := nodup_append_key 11 s10.1 (edgeParams_nodup n 10)
    (fun a ha => by have := s10.2 a ha; omega)
    (fun a ha => by have := vkey_edgeParams n 10 a ha; omega)
  have s12 := nodup_append_key 12 s11.1 (edgeParams_nodup n 11)
    (fun a ha => by have := s11.2 a ha; omega)
    (fun a ha => by have := vkey_edgeParams n 11 a ha; omega)
  have s13 := nodup_append_key 13 s12.1 (faceParams_nodup n 0)
    (fun a ha => by have := s12.2 a ha; omega)
    (fun a ha => by have := vkey_faceParams n 0 a ha; omega)
  have s14 := nodup_append_key 14 s13.1 (faceParams_nodup n 1)
    (fun a ha => by have := s13.2 a ha; omega)
    (fun a ha => by have := vkey_faceParams n 1 a ha; omega)
  have s15 := nodup_append_key 15 s14.1 (faceParams_nodup n 2)
    (fun a ha => by have := s14.2 a ha; omega)
    (fun a ha => by have := vkey_faceParams n 2 a ha; omega)
  have s16 := nodup_append_key 16 s15.1 (faceParams_nodup n 3)
    (fun a ha => by have := s15.2 a ha; omega)
    (fun a ha => by have := vkey_faceParams n 3 a ha; omega)
  have s17 := nodup_append_key 17 s16.1 (faceParams_nodup n 4)
    (fun a ha => by have := s16.2 a ha; omega)
    (fun a ha => by have := vkey_faceParams n 4 a ha; omega)
  have s18 := nodup_append_key 18 s17.1 (faceParams_nodup n 5)
    (fun a ha => by have := s17.2 a ha; omega)
    (fun a ha => by have := vkey_faceParams n 5 a ha; omega)
  exact s18.1

theorem finalPositions_nodup (n : ℤ) (hn : 1 ≤ n) : (finalPositions n).Nodup := by
  rw [← paramList_map n]
  refine (paramList_nodup n).map_on ?_
  intro x hx y hy hxy
  have hx' := decode_posFn n hn x (mem_paramList_vOK n x hx)
  have hy' := decode_posFn n hn y (mem_paramList_vOK n y hy)
  rw [← hx', ← hy', hxy]

/-- C4: for every partition count `N ≥ 1`, the cube-space positions produced
by the topology phase (before projection) are pairwise distinct as points, and
this distinctness holds for every prefix of the buffer — hence it is preserved
by every `addEdgePositions` and `addFaceTriangles` call, each of which only
appends to the buffer. -/
theorem C4_positions_distinct (n : ℤ) (hn : 1 ≤ n) :
    ((buildCubeTopology n).1).Nodup ∧
      ∀ k : ℕ, (((buildCubeTopology n).1).take k).Nodup := by
  have h := buildCubeTopology_eq n hn
  have hall : ((buildCubeTopology n).1).Nodup := by
    rw [h]
    exact finalPositions_nodup n hn
  exact ⟨hall, fun k => hall.sublist (List.take_sublist k _)⟩

theorem C4_positions_distinct_witness :
    (1 : ℤ) ≤ 2 ∧ ((buildCubeTopology 2).1).Nodup :=
  ⟨by decide, (C4_positions_distinct 2 (by decide)).1⟩
